import Mathlib

/- Verification development for the Feishu document sync engine
   (scripts/index.py).  Text is modeled as `List Char` (Python `str`),
   block identifiers as `String`, and JSON dicts as explicit structures.
   Fallible / possibly diverging recursions are modeled with an explicit
   fuel argument whose sufficiency is proved. -/

/- ---------------------------------------------------------------- -/
/- Basic text helpers (Python str operations used by index.py)      -/
/- ---------------------------------------------------------------- -/

def str (s : String) : List Char := s.toList

/-- Python `\s` (ASCII range; lines never contain `'\n'` after splitting). -/
def isWS (c : Char) : Bool :=
  c == ' ' || c == '\t' || c == '\n' || c == '\r' || c == '\x0c' || c == '\x0b'

/-- Python `str.lstrip()`. -/
def lstripL (l : List Char) : List Char := l.dropWhile isWS

/-- Python `str.strip()`. -/
def trimL (l : List Char) : List Char :=
  ((l.dropWhile isWS).reverse.dropWhile isWS).reverse

/-- Python `"\n".join`. -/
def joinNL (ls : List (List Char)) : List Char := List.intercalate ['\n'] ls

/-- Python `str.split(sep)` for a one-character separator
    (always returns at least one piece). -/
def splitOnChar (sep : Char) : List Char → List (List Char)
  | [] => [[]]
  | c :: rest =>
    let ps := splitOnChar sep rest
    if c == sep then [] :: ps
    else
      match ps with
      | p :: ps2 => (c :: p) :: ps2
      | [] => [[c]]

/-- Python `str.split("\n")`. -/
def splitLines (l : List Char) : List (List Char) := splitOnChar '\n' l

/-- Python `str.startswith`. -/
def startsWithL : List Char → List Char → Bool
  | [], _ => true
  | _ :: _, [] => false
  | p :: ps, c :: cs => p == c && startsWithL ps cs

/-- Python `needle in haystack` (substring test). -/
def containsSub (needle : List Char) : List Char → Bool
  | [] => needle.isEmpty
  | c :: rest => startsWithL needle (c :: rest) || containsSub needle rest

/-- Python `str.lower()`. -/
def lowerL (l : List Char) : List Char := l.map Char.toLower

/- ---------------------------------------------------------------- -/
/- Read-side data model: remote blocks (index.py block dicts)       -/
/- ---------------------------------------------------------------- -/

/-- One element of an `elements` list: a `text_run` dict (with its
    `content`) and/or a `mention_user`/`mention_doc` dict (with its
    `content`); `none` models an absent key. -/
structure Element where
  text_run : Option (List Char) := none
  mention : Option (List Char) := none
deriving DecidableEq

/-- `extract_text` (index.py:268-279): concatenates each element's
    text-run content and, when a mention dict is present, its content. -/
def extract_text (els : List Element) : List Char :=
  (els.map fun el => el.text_run.getD [] ++ el.mention.getD []).flatten

/-- A type-specific payload dict of a block: a dict carrying an
    `elements` list (plus `style.language` for code, `style.done` for
    todo), or the `table` dict (`property` sizes plus flat `cells`). -/
inductive PayloadVal where
  | elems (es : List Element)
  | elemsCode (es : List Element) (language : Nat)
  | elemsTodo (es : List Element) (done : Bool)
  | table (row_size : Int) (column_size : Int) (cells : List String)
deriving DecidableEq

/-- A remote block dict: id, numeric `block_type`, the type-keyed
    payload dicts in insertion order, and the ordered child id list. -/
structure Block where
  block_id : String := ""
  block_type : Nat := 0
  entries : List (String × PayloadVal) := []
  children : List String := []
deriving DecidableEq

/-- `block_map`: id-indexed block set.  (Python builds a dict whose later
    duplicates win; all maps in this development have distinct keys, so
    first-match lookup agrees.) -/
abbrev BlockMap := List (String × Block)

def lookupBlock (m : BlockMap) (id : String) : Option Block := m.lookup id

/-- Python `block.get(key, \x7b\x7d)` restricted to the payload dicts. -/
def Block.getEntry (b : Block) (key : String) : Option PayloadVal :=
  b.entries.lookup key

def payloadElems : PayloadVal → Option (List Element)
  | .elems es => some es
  | .elemsCode es _ => some es
  | .elemsTodo es _ => some es
  | .table _ _ _ => none

/-- Python `block.get(key, \x7b\x7d).get("elements", [])`. -/
def Block.getElems (b : Block) (key : String) : List Element :=
  match b.getEntry key with
  | some p => (payloadElems p).getD []
  | none => []

/-- `extract_block_text` (index.py:282-286): text of the first payload
    dict (in key insertion order) that carries an `elements` list. -/
def extract_block_text (b : Block) : List Char :=
  match b.entries.find? (fun e => (payloadElems e.2).isSome) with
  | some e => extract_text ((payloadElems e.2).getD [])
  | none => []

/- ---------------------------------------------------------------- -/
/- Visited-guarded recursive traversals (index.py:289-325)          -/
/- ---------------------------------------------------------------- -/

/-- The child loop of `get_block_text_by_id`: resolves each child with
    the threaded visited set and keeps the non-empty child texts. -/
def textKidsRun (f : String → List String → Option (List Char × List String)) :
    List String → List String → Option (List (List Char) × List String)
  | [], v => some ([], v)
  | cid :: rest, v =>
    match f cid v with
    | none => none
    | some (t, v1) =>
      match textKidsRun f rest v1 with
      | none => none
      | some (ts, v2) => some ((if t.isEmpty then [] else [t]) ++ ts, v2)

/-- `get_block_text_by_id` (index.py:289-310) with explicit fuel: fuel is
    consumed once per recursion depth; the Python recursion terminates
    because each level adds one unvisited map key to `visited`, so fuel
    `|map| + 1` never runs out (proved below). -/
def getTextF (m : BlockMap) : Nat → String → List String → Option (List Char × List String)
  | 0, _, _ => none
  | fuel + 1, block_id, visited =>
    if block_id = "" ∨ block_id ∈ visited then some ([], visited)
    else
      let visited2 := block_id :: visited
      match lookupBlock m block_id with
      | none => some ([], visited2)
      | some b =>
        let text := trimL (extract_block_text b)
        if ¬ text.isEmpty then some (text, visited2)
        else
          match textKidsRun (fun cid v => getTextF m fuel cid v) b.children visited2 with
          | none => none
          | some (ts, v2) => some (joinNL ts, v2)

def get_block_text_by_id (m : BlockMap) (block_id : String) : List Char :=
  match getTextF m (m.length + 1) block_id [] with
  | some (t, _) => t
  | none => []

/-- The child loop of `collect_descendant_ids`: adds each child id plus
    its recursively collected descendants (set union modeled as a list;
    only membership is ever used). -/
def collectKidsRun (f : String → List String → Option (List String × List String)) :
    List String → List String → Option (List String × List String)
  | [], v => some ([], v)
  | cid :: rest, v =>
    match f cid v with
    | none => none
    | some (ds, v1) =>
      match collectKidsRun f rest v1 with
      | none => none
      | some (ds2, v2) => some (cid :: ds ++ ds2, v2)

/-- `collect_descendant_ids` (index.py:313-325) with explicit fuel,
    guarded by the same visited set discipline. -/
def collectF (m : BlockMap) : Nat → String → List String → Option (List String × List String)
  | 0, _, _ => none
  | fuel + 1, block_id, visited =>
    if block_id = "" ∨ block_id ∈ visited then some ([], visited)
    else
      let visited2 := block_id :: visited
      let children := ((lookupBlock m block_id).map Block.children).getD []
      match collectKidsRun (fun cid v => collectF m fuel cid v) children visited2 with
      | none => none
      | some (ds, v2) => some (ds, v2)

def collect_descendant_ids (m : BlockMap) (block_id : String) : List String :=
  match collectF m (m.length + 1) block_id [] with
  | some (ds, _) => ds
  | none => []

/- ---------------------------------------------------------------- -/
/- Table and callout rendering (index.py:328-386)                   -/
/- ---------------------------------------------------------------- -/

/-- `table.get("property", \x7b\x7d)` sizes and the flat `cells` list;
    absent table dict yields the falsy defaults `0, 0, []`. -/
def tablePayload (b : Block) : Int × Int × List String :=
  match b.getEntry "table" with
  | some (.table rs cs cells) => (rs, cs, cells)
  | _ => (0, 0, [])

/-- Cell text escaping: `.replace("\n", "<br>").replace("|", "\\|")`. -/
def escapeCell (l : List Char) : List Char :=
  l.flatMap fun c =>
    if c == '\n' then str "<br>" else if c == '|' then ['\\', '|'] else [c]

/-- The matrix built by `table_block_to_md` (index.py:340-348):
    `row_count × col_size`, filled row-major from the first
    `min(len(cells), row_count*col_size)` cell ids, empty elsewhere. -/
def tableMatrix (m : BlockMap) (cells : List String) (row_count col_size : Nat) :
    List (List (List Char)) :=
  (List.range row_count).map fun r =>
    (List.range col_size).map fun c =>
      let idx := r * col_size + c
      if idx < min cells.length (row_count * col_size) then
        escapeCell (trimL (get_block_text_by_id m (cells.getD idx "")))
      else []

/-- Markdown lines for a non-empty matrix: header row, `---` separator
    row, then the remaining rows (index.py:353-361). -/
def tableRender (matrix : List (List (List Char))) (col_size : Nat) : List Char :=
  let row_line := fun (row : List (List Char)) =>
    str "| " ++ List.intercalate (str " | ") row ++ str " |"
  joinNL (row_line (matrix.headD []) ::
    row_line (List.replicate col_size (str "---")) ::
    (matrix.drop 1).map row_line)

/-- The clamped row count
    `min(row_size, max(1, len(cell_ids) // column_size))` (index.py:339). -/
def tableRowCount (row_size col_size : Int) (cells : List String) : Nat :=
  min row_size.toNat (max 1 (cells.length / col_size.toNat))

/-- `table_block_to_md` (index.py:328-361). -/
def table_block_to_md (b : Block) (m : BlockMap) : List Char :=
  let p := tablePayload b
  let row_size := p.1
  let col_size := p.2.1
  let cell_ids := p.2.2
  if row_size ≤ 0 ∨ col_size ≤ 0 ∨ cell_ids.isEmpty then str "[表格]"
  else
    let cs := col_size.toNat
    let row_count := tableRowCount row_size col_size cell_ids
    let matrix := tableMatrix m cell_ids row_count cs
    if matrix.isEmpty then str "[表格]"
    else tableRender matrix cs

/-- `callout_block_to_md` (index.py:364-386): child texts take
    precedence; falls back to the callout's own elements; `none` when no
    content at all. -/
def callout_block_to_md (b : Block) (m : BlockMap) : Option (List Char) :=
  let texts :=
    if ¬ b.children.isEmpty then
      (b.children.map fun cid => trimL (get_block_text_by_id m cid)).filter
        (fun t => ¬ t.isEmpty)
    else
      match b.getElems "callout" with
      | [] => []
      | es =>
        let direct := trimL (extract_text es)
        if direct.isEmpty then [] else [direct]
  if texts.isEmpty then none
  else
    some (joinNL ((splitLines (joinNL texts)).map fun ln =>
      if ln.isEmpty then ['>'] else '>' :: ' ' :: ln))

/-- The read-side language-code table of `block_to_md` (index.py:406-419);
    unmapped codes give `""`. -/
def readLangName (n : Nat) : List Char :=
  match n with
  | 0 => str "PlainText" | 1 => str "ABAP" | 2 => str "Ada" | 3 => str "Apache"
  | 4 => str "Apex" | 5 => str "Assembly" | 6 => str "Bash" | 7 => str "CSharp"
  | 8 => str "CPP" | 9 => str "C" | 10 => str "COBOL" | 11 => str "CSS"
  | 12 => str "CoffeeScript" | 13 => str "D" | 14 => str "Dart" | 15 => str "Delphi"
  | 16 => str "Django" | 17 => str "Dockerfile" | 18 => str "Erlang"
  | 19 => str "Fortran" | 20 => str "FoxPro" | 21 => str "Go" | 22 => str "Groovy"
  | 23 => str "HTML" | 24 => str "HTMLBars" | 25 => str "HTTP" | 26 => str "Haskell"
  | 27 => str "JSON" | 28 => str "Java" | 29 => str "JavaScript" | 30 => str "Julia"
  | 31 => str "Kotlin" | 32 => str "LateX" | 33 => str "Lisp" | 34 => str "Logo"
  | 35 => str "Lua" | 36 => str "MATLAB" | 37 => str "Makefile" | 38 => str "Markdown"
  | 39 => str "Nginx" | 40 => str "Objective-C" | 41 => str "OpenEdgeABL"
  | 42 => str "PHP" | 43 => str "Perl" | 44 => str "PostScript"
  | 45 => str "Power Shell" | 46 => str "Prolog" | 47 => str "ProtoBuf"
  | 48 => str "Python" | 49 => str "R" | 50 => str "RPG" | 51 => str "Ruby"
  | 52 => str "Rust" | 53 => str "SAS" | 54 => str "SCSS" | 55 => str "SQL"
  | 56 => str "Scala" | 57 => str "Scheme" | 58 => str "Scratch" | 59 => str "Shell"
  | 60 => str "Swift" | 61 => str "Thrift" | 62 => str "TypeScript"
  | 63 => str "VBScript" | 64 => str "Visual Basic" | 65 => str "XML"
  | 66 => str "YAML" | _ => []

/-- `block_to_md` (index.py:389-443): per-type Markdown rendering. -/
def block_to_md (b : Block) (m : BlockMap) : Option (List Char) :=
  let btype := b.block_type
  if btype = 1 then some (str "# " ++ extract_text (b.getElems "page"))
  else if btype = 2 then some (extract_text (b.getElems "text"))
  else if 3 ≤ btype ∧ btype ≤ 11 then
    let level := btype - 2
    some (List.replicate level '#' ++ ' ' ::
      extract_text (b.getElems ("heading" ++ toString level)))
  else if btype = 12 then some (str "- " ++ extract_text (b.getElems "bullet"))
  else if btype = 13 then some (str "1. " ++ extract_text (b.getElems "ordered"))
  else if btype = 14 then
    let langCode :=
      match b.getEntry "code" with
      | some (.elemsCode _ lc) => lc
      | _ => 0
    some (str "```" ++ readLangName langCode ++ '\n' ::
      extract_text (b.getElems "code") ++ '\n' :: str "```")
  else if btype = 15 then
    let es :=
      match b.getEntry "quote_container" with
      | some p => (payloadElems p).getD []
      | none => b.getElems "quote"
    some (str "> " ++ extract_text es)
  else if btype = 17 then
    let done :=
      match b.getEntry "todo" with
      | some (.elemsTodo _ d) => d
      | _ => false
    some ((if done then str "- [x] " else str "- [ ] ") ++
      extract_text (b.getElems "todo"))
  else if btype = 23 then some (str "---")
  else if btype = 27 then some (str "[图片]")
  else if btype = 22 ∨ (btype = 31 ∧ (b.getEntry "table").isSome) then
    some (table_block_to_md b m)
  else if btype = 18 then some (str "[多维表格]")
  else if btype = 31 then some (str "[分栏]")
  else if btype = 19 then callout_block_to_md b m
  else some (extract_block_text b)

/- ---------------------------------------------------------------- -/
/- Read pass: skip set and full render (index.py:569-595)           -/
/- ---------------------------------------------------------------- -/

/-- `skip_block_ids` (index.py:570-584): table cell subtrees and callout
    child subtrees are suppressed from the generic render pass (set
    modeled as a membership list). -/
def computeSkipIds (items : List Block) (m : BlockMap) : List String :=
  items.foldl
    (fun acc it =>
      let acc :=
        if it.block_type = 22 ∨ (it.block_type = 31 ∧ (it.getEntry "table").isSome) then
          (tablePayload it).2.2.foldl
            (fun a cid => a ++ cid :: collect_descendant_ids m cid) acc
        else acc
      if it.block_type = 19 then
        it.children.foldl (fun a cid => a ++ cid :: collect_descendant_ids m cid) acc
      else acc)
    []

/-- `block_map` construction (index.py:569). -/
def buildBlockMap (items : List Block) : BlockMap :=
  (items.filter fun it => it.block_id ≠ "").map fun it => (it.block_id, it)

/-- The read path's blocks→Markdown conversion (index.py:586-595). -/
def readRender (items : List Block) : List Char :=
  let m := buildBlockMap items
  let skip := computeSkipIds items m
  joinNL (items.filterMap fun it =>
    if it.block_id ≠ "" ∧ it.block_id ∈ skip then none else block_to_md it m)

/- ---------------------------------------------------------------- -/
/- Write-side data model: descriptors built from Markdown           -/
/- ---------------------------------------------------------------- -/

/-- A `text_run` element produced by the write path: content plus the
    optional one-key `text_element_style` dict. -/
structure WElem where
  content : List Char
  bold : Bool := false
  inline_code : Bool := false
  strikethrough : Bool := false
  link : Option (List Char) := none
deriving DecidableEq

/-- A write-side block dict as produced by the `make_*` builders
    (index.py:487-541): the constructor fixes which payload key is
    present; `calloutMarker` is the `_callout/_callout_text` marker dict
    of `make_quote_block` and `calloutContainer` the bare callout shell
    created during the two-phase upload (index.py:673). -/
inductive WBlock where
  | text (elements : List WElem)
  | heading (level : Nat) (elements : List WElem)
  | bullet (elements : List WElem)
  | ordered (elements : List WElem)
  | code (elements : List WElem) (language : Nat)
  | todo (elements : List WElem) (done : Bool)
  | calloutMarker (callout_text : List Char)
  | calloutContainer
deriving DecidableEq

/-- The `block_type` field of a write-side block dict (the
    `make_quote_block` marker dict carries none). -/
def WBlock.blockType : WBlock → Option Nat
  | .text _ => some 2
  | .heading level _ => some (level + 2)
  | .bullet _ => some 12
  | .ordered _ => some 13
  | .code _ _ => some 14
  | .todo _ _ => some 17
  | .calloutMarker _ => none
  | .calloutContainer => some 19

/-- Python `blk.get("_callout")` truthiness. -/
def WBlock.isCallout : WBlock → Bool
  | .calloutMarker _ => true
  | _ => false

def WBlock.calloutText : WBlock → List Char
  | .calloutMarker t => t
  | _ => []

/- ---------------------------------------------------------------- -/
/- Inline style parser (index.py:446-476)                           -/
/- ---------------------------------------------------------------- -/

/-- Split at the first occurrence of `c`: `some (before, after)` with
    `c` itself dropped (the regex pieces `[^x]+x`). -/
def splitAtFirst (c : Char) : List Char → Option (List Char × List Char)
  | [] => none
  | x :: xs =>
    if x == c then some ([], xs)
    else (splitAtFirst c xs).map fun p => (x :: p.1, p.2)

/-- Split at the first occurrence of the two-character marker `cc`
    (the lazy closing search of `(.+?)\*\*` and `(.+?)~~`). -/
def splitAtFirstPair (c : Char) : List Char → Option (List Char × List Char)
  | [] => none
  | [_] => none
  | x :: y :: xs =>
    if x == c && y == c then some ([], xs)
    else (splitAtFirstPair c (y :: xs)).map fun p => (x :: p.1, p.2)

/-- The bold alternative `\*\*(.+?)\*\*`: content is everything up to the
    first closing pair, must be non-empty (built in) and newline-free
    (`.` does not match a newline). -/
def tryBold : List Char → Option (WElem × List Char)
  | '*' :: '*' :: c0 :: rest =>
    match splitAtFirstPair '*' rest with
    | some (more, rem) =>
      let content := c0 :: more
      if content.all (fun c => c ≠ '\n') then
        some (⟨content, true, false, false, none⟩, rem)
      else none
    | none => none
  | _ => none

/-- The inline-code alternative ``(`([^`]+)`)``. -/
def tryCode : List Char → Option (WElem × List Char)
  | '`' :: rest =>
    match splitAtFirst '`' rest with
    | some (content, rem) =>
      if content.isEmpty then none
      else some (⟨content, false, true, false, none⟩, rem)
    | none => none
  | _ => none

/-- The strikethrough alternative `~~(.+?)~~`. -/
def tryStrike : List Char → Option (WElem × List Char)
  | '~' :: '~' :: c0 :: rest =>
    match splitAtFirstPair '~' rest with
    | some (more, rem) =>
      let content := c0 :: more
      if content.all (fun c => c ≠ '\n') then
        some (⟨content, false, false, true, none⟩, rem)
      else none
    | none => none
  | _ => none

/-- The absolute-URL test of the link branch (index.py:469). -/
def isAbsoluteHttp (url : List Char) : Bool :=
  startsWithL (str "http://") url || startsWithL (str "https://") url

/-- The element emitted for a matched link (index.py:467-472): a styled
    link run for an absolute http(s) URL, otherwise the literal
    bracketed Markdown text as a plain run. -/
def linkRun (label url : List Char) : WElem :=
  if isAbsoluteHttp url then ⟨label, false, false, false, some url⟩
  else ⟨'[' :: label ++ ']' :: '(' :: url ++ [')'], false, false, false, none⟩

/-- The link alternative `\[([^\]]+)\]\(([^)]+)\)`. -/
def tryLink : List Char → Option (WElem × List Char)
  | '[' :: rest =>
    match splitAtFirst ']' rest with
    | some (label, rem1) =>
      if label.isEmpty then none
      else
        match rem1 with
        | '(' :: rem2 =>
          match splitAtFirst ')' rem2 with
          | some (url, rem3) =>
            if url.isEmpty then none
            else some (linkRun label url, rem3)
          | none => none
        | _ => none
    | none => none
  | _ => none

/-- One anchored attempt of the alternation, in pattern order:
    bold, inline code, strikethrough, link. -/
def tryMatchHere (cs : List Char) : Option (WElem × List Char) :=
  match tryBold cs with
  | some r => some r
  | none =>
    match tryCode cs with
    | some r => some r
    | none =>
      match tryStrike cs with
      | some r => some r
      | none => tryLink cs

/-- Leftmost-match scan of `re.finditer`: the unmatched gap before the
    first position where the alternation matches, and the match. -/
def splitAtMatch : List Char → List Char × Option (WElem × List Char)
  | [] => ([], none)
  | c :: rest =>
    match tryMatchHere (c :: rest) with
    | some (el, rem) => ([], some (el, rem))
    | none =>
      let p := splitAtMatch rest
      (c :: p.1, p.2)

/-- The `finditer` loop of `parse_inline_styles`: plain runs for gaps,
    styled runs for matches.  Fuel bounds the number of matches; every
    match consumes at least one character, so the input length is always
    enough. -/
def inlineScan : Nat → List Char → List WElem
  | 0, _ => []
  | _, [] => []
  | fuel + 1, cs =>
    match splitAtMatch cs with
    | (gap, none) => if gap.isEmpty then [] else [⟨gap, false, false, false, none⟩]
    | (gap, some (el, rem)) =>
      (if gap.isEmpty then [] else [⟨gap, false, false, false, none⟩]) ++
        el :: inlineScan fuel rem

/-- `parse_inline_styles` (index.py:446-476). -/
def parse_inline_styles (text : List Char) : List WElem :=
  if text.isEmpty then [⟨[' '], false, false, false, none⟩]
  else
    let elements := inlineScan text.length text
    if elements.isEmpty then [⟨[' '], false, false, false, none⟩] else elements

/- ---------------------------------------------------------------- -/
/- Write-side block builders (index.py:479-541)                     -/
/- ---------------------------------------------------------------- -/

def make_text_elements (text : List Char) : List WElem :=
  parse_inline_styles text

def make_plain_elements (text : List Char) : List WElem :=
  if text.isEmpty then [⟨[' '], false, false, false, none⟩]
  else [⟨text, false, false, false, none⟩]

def make_text_block (text : List Char) : WBlock :=
  .text (make_text_elements text)

/-- `make_heading_block` (index.py:491-496): level clamped to 1–9, text
    as a single bold run. -/
def make_heading_block (level : Nat) (text : List Char) : WBlock :=
  .heading (max 1 (min level 9)) [⟨text, true, false, false, none⟩]

def make_bullet_block (text : List Char) : WBlock :=
  .bullet (make_text_elements text)

def make_ordered_block (text : List Char) : WBlock :=
  .ordered (make_text_elements text)

/-- The write-side language table of `make_code_block` (index.py:508-515);
    unmapped names give 21. -/
def writeLangCode (lang : List Char) : Nat :=
  if lang = str "sql" then 56 else if lang = str "java" then 29
  else if lang = str "javascript" then 30 else if lang = str "typescript" then 63
  else if lang = str "python" then 49 else if lang = str "go" then 22
  else if lang = str "bash" then 7 else if lang = str "shell" then 60
  else if lang = str "json" then 28 else if lang = str "yaml" then 67
  else if lang = str "xml" then 66 else if lang = str "html" then 24
  else if lang = str "css" then 11 else if lang = str "groovy" then 23
  else if lang = str "lua" then 36 else if lang = str "markdown" then 39
  else if lang = str "nginx" then 40 else if lang = str "php" then 43
  else if lang = str "c" then 10 else if lang = str "cpp" then 9
  else if lang = str "c++" then 9 else if lang = str "csharp" then 8
  else if lang = str "c#" then 8 else if lang = str "scala" then 57
  else if lang = str "ruby" then 52 else if lang = str "rust" then 53
  else if lang = str "r" then 50 else if lang = str "scss" then 55
  else if lang = str "mermaid" then 21 else if lang = str "plaintext" then 21
  else if lang = [] then 21
  else 21

def make_code_block (code_text lang : List Char) : WBlock :=
  .code (make_plain_elements code_text) (writeLangCode (lowerL lang))

/-- `make_quote_block` (index.py:526-527): only the two-phase marker. -/
def make_quote_block (text : List Char) : WBlock :=
  .calloutMarker text

/-- `make_divider_block` (index.py:530-531): a plain text block holding a
    drawn horizontal line, not a native divider block. -/
def make_divider_block : WBlock :=
  .text (make_text_elements (str "───────────────────"))

def make_todo_block (text : List Char) (done : Bool) : WBlock :=
  .todo (make_text_elements text) done

/- ---------------------------------------------------------------- -/
/- Line classification of the write path (index.py:712-920)         -/
/- ---------------------------------------------------------------- -/

/-- `re.match(r"^#\s+(.+)", line)` group 1: after `#`, at least one
    whitespace; greedy `\s+` then non-empty `.+` (when the rest is all
    whitespace the engine backtracks one character into the group). -/
def matchTitle (line : List Char) : Option (List Char) :=
  match line with
  | '#' :: rest =>
    match rest with
    | c :: _ =>
      if isWS c then
        let s := rest.dropWhile isWS
        if ¬ s.isEmpty then some s
        else if 2 ≤ rest.length then some [rest.getLastD ' ']
        else none
      else none
    | [] => none
  | _ => none

/-- `re.match(r"^(#{1,9})\s+(.*)", line)`: level and text (ten or more
    leading `#` cannot match, since the tenth is not whitespace). -/
def matchHeading (line : List Char) : Option (Nat × List Char) :=
  let cnt := (line.takeWhile (fun c => c == '#')).length
  if 1 ≤ cnt ∧ cnt ≤ 9 then
    match line.drop cnt with
    | c :: r => if isWS c then some (cnt, (c :: r).dropWhile isWS) else none
    | [] => none
  else none

/-- `^-{3,}$` or `^\*{3,}$` on the stripped line. -/
def isDividerLine (t : List Char) : Bool :=
  (3 ≤ t.length && t.all (fun c => c == '-')) ||
    (3 ≤ t.length && t.all (fun c => c == '*'))

/-- `re.match(r"^-\s*\[([ xX])\]\s*(.*)", stripped)`: done flag and text. -/
def matchTodo (s : List Char) : Option (Bool × List Char) :=
  match s with
  | '-' :: r =>
    match r.dropWhile isWS with
    | '[' :: c :: ']' :: r2 =>
      if c == ' ' || c == 'x' || c == 'X' then
        some (c == 'x' || c == 'X', r2.dropWhile isWS)
      else none
    | _ => none
  | _ => none

/-- `re.match(r"^[-*+]\s+", stripped)` plus the `re.sub` removal of the
    matched marker and whitespace. -/
def matchBullet (s : List Char) : Option (List Char) :=
  match s with
  | m :: c :: r =>
    if (m == '-' || m == '*' || m == '+') && isWS c then
      some ((c :: r).dropWhile isWS)
    else none
  | _ => none

/-- `re.match(r"^\d+\.\s+(.*)", stripped)`. -/
def matchOrdered (s : List Char) : Option (List Char) :=
  let ds := s.takeWhile Char.isDigit
  if ds.isEmpty then none
  else
    match s.drop ds.length with
    | '.' :: c :: r => if isWS c then some ((c :: r).dropWhile isWS) else none
    | _ => none

/-- The quote-entry condition (index.py:802). -/
def isQuoteStart (s : List Char) : Bool :=
  startsWithL (str "> ") s || s == ['>'] ||
    (startsWithL (str ">") s && !startsWithL (str ">>>") s)

/-- `re.match(r"^\s*\|[\s\-:|]+\|?\s*$", next_line)`: after optional
    whitespace and `|`, a non-empty tail entirely of whitespace, `-`,
    `:` and `|` (the optional trailing `|` and whitespace fold into the
    character class). -/
def matchTableSep (l : List Char) : Bool :=
  match l.dropWhile isWS with
  | '|' :: rest =>
    !rest.isEmpty && rest.all (fun c => isWS c || c == '-' || c == ':' || c == '|')
  | _ => false

/-- The fenced-code consumption loop (index.py:734-739): lines before the
    closing fence, and the remainder with the closing fence dropped. -/
def takeCode : List (List Char) → List (List Char) × List (List Char)
  | [] => ([], [])
  | l :: rest =>
    if startsWithL (str "```") (trimL l) then ([], rest)
    else
      let p := takeCode rest
      (l :: p.1, p.2)

/-- The quote-merging loop (index.py:804-813): consecutive `>` lines with
    the leading marker stripped per line. -/
def takeQuote : List (List Char) → List (List Char) × List (List Char)
  | [] => ([], [])
  | l :: rest =>
    let ql := lstripL l
    if startsWithL (str "> ") ql then
      let p := takeQuote rest
      (ql.drop 2 :: p.1, p.2)
    else if startsWithL (str ">") ql then
      let p := takeQuote rest
      (ql.drop 1 :: p.1, p.2)
    else ([], l :: rest)

/-- The table consumption loop (index.py:820-822): stripped pipe-prefixed
    lines. -/
def takeTable : List (List Char) → List (List Char) × List (List Char)
  | [] => ([], [])
  | l :: rest =>
    if startsWithL (str "|") (trimL l) then
      let p := takeTable rest
      (trimL l :: p.1, p.2)
    else ([], l :: rest)

/-- Language auto-detection for fenced code without an explicit tag
    (index.py:742-753). -/
def autoLang (ct : List Char) : List Char :=
  if [str "CREATE TABLE", str "ALTER TABLE", str "INSERT INTO", str "SELECT ",
      str "DROP TABLE"].any (fun k => containsSub k ct) then str "sql"
  else if [str "@FeignClient", str "public ", str "private ", str "interface ",
      str "class ", str "@Override", str "@GetMapping", str "@PostMapping",
      str "import "].any (fun k => containsSub k ct) then str "java"
  else if startsWithL (str "\x7b") ct || startsWithL (str "[") ct then str "json"
  else if [str "flowchart", str "sequenceDiagram", str "stateDiagram",
      str "erDiagram", str "gantt"].any (fun k => containsSub k ct) then str "mermaid"
  else if [str "GET /", str "POST /", str "PUT /",
      str "DELETE /"].any (fun k => containsSub k ct) then str "bash"
  else []

/-- One table row's cells: `[c.strip() for c in line.split("|") if c.strip()]`. -/
def splitCellsRow (l : List Char) : List (List Char) :=
  ((splitOnChar '|' l).map trimL).filter (fun c => ¬ c.isEmpty)

/-- Per-column maximum observed cell length (index.py:833-836). -/
def colMaxLens (rows : List (List (List Char))) (col_size : Nat) : List Nat :=
  (List.range col_size).map fun ci =>
    rows.foldl
      (fun acc row => if ci < row.length then max acc (row.getD ci []).length else acc)
      0

/-- Proportional column widths against the 700 budget with floor 100
    (index.py:837-839; `int()` of the float quotient modeled as integer
    floor, exact for the magnitudes arising here). -/
def colWidths (rows : List (List (List Char))) (col_size : Nat) : List Nat :=
  let ls := colMaxLens rows col_size
  let total_len := max (ls.foldl (· + ·) 0) 1
  ls.map fun cl => max 100 (700 * cl / total_len)

/-- One abstract operation produced by the write-path line scanner:
    a document-title update, a pending block descriptor, or a native
    table reconstruction (header cells, data-row cells, column count,
    column widths). -/
inductive ParseOp where
  | titleSet (text : List Char)
  | desc (b : WBlock)
  | table (header : List (List Char)) (dataRows : List (List (List Char)))
      (colSize : Nat) (widths : List Nat)
deriving DecidableEq

def tableOpOf (table_lines : List (List Char)) : ParseOp :=
  let header_cells := splitCellsRow (table_lines.getD 0 [])
  let data_rows := (table_lines.drop 2).map splitCellsRow
  ParseOp.table header_cells data_rows header_cells.length
    (colWidths (header_cells :: data_rows) header_cells.length)

inductive WMode where
  | write
  | append
deriving DecidableEq

/-- One iteration of the write-path line loop (index.py:712-920): the
    operations emitted for the current line, the updated
    `doc_title_set` flag, and the remaining lines (multi-line constructs
    consume lines from `rest`). -/
def parseLine (mode : WMode) (doc_title_set : Bool) (line : List Char)
    (rest : List (List Char)) : List ParseOp × Bool × List (List Char) :=
  if ¬ doc_title_set ∧ (matchTitle line).isSome ∧ ¬ startsWithL (str "##") line then
    ([match mode with
      | .write => ParseOp.titleSet ((matchTitle line).getD [])
      | .append => ParseOp.desc (make_heading_block 1 ((matchTitle line).getD []))],
     true, rest)
  else if startsWithL (str "```") (trimL line) then
    let lang := trimL ((trimL line).drop 3)
    let p := takeCode rest
    let code_text := joinNL p.1
    let lang2 := if lang.isEmpty then autoLang (trimL code_text) else lang
    ([ParseOp.desc (make_code_block code_text lang2)], doc_title_set, p.2)
  else if (trimL line).isEmpty then ([], doc_title_set, rest)
  else if isDividerLine (trimL line) then
    ([ParseOp.desc make_divider_block], doc_title_set, rest)
  else if (matchHeading line).isSome then
    let h := (matchHeading line).getD (1, [])
    ([ParseOp.desc (make_heading_block h.1 h.2)], doc_title_set, rest)
  else
    let stripped := lstripL line
    if (matchTodo stripped).isSome then
      let t := (matchTodo stripped).getD (false, [])
      ([ParseOp.desc (make_todo_block t.2 t.1)], doc_title_set, rest)
    else if (matchBullet stripped).isSome then
      ([ParseOp.desc (make_bullet_block ((matchBullet stripped).getD []))],
       doc_title_set, rest)
    else if (matchOrdered stripped).isSome then
      ([ParseOp.desc (make_ordered_block ((matchOrdered stripped).getD []))],
       doc_title_set, rest)
    else if isQuoteStart stripped then
      let q := takeQuote (line :: rest)
      ([ParseOp.desc (make_quote_block (joinNL q.1))], doc_title_set, q.2)
    else if startsWithL (str "|") stripped &&
        (match rest with | nxt :: _ => matchTableSep nxt | [] => false) then
      let tt := takeTable (line :: rest)
      ((if 2 ≤ tt.1.length then [tableOpOf tt.1] else []), doc_title_set, tt.2)
    else
      ([ParseOp.desc (make_text_block line)], doc_title_set, rest)

/-- The write-path line loop of `process` (index.py:712-920), with the
    remote mutations abstracted into `ParseOp`s.  Fuel counts loop
    iterations; each iteration consumes at least one line, so the line
    count is always enough. -/
def parseLoop (mode : WMode) : Nat → Bool → List (List Char) → List ParseOp
  | 0, _, _ => []
  | _, _, [] => []
  | fuel + 1, doc_title_set, line :: rest =>
    let r := parseLine mode doc_title_set line rest
    r.1 ++ parseLoop mode fuel r.2.1 r.2.2

/-- Parsing one Markdown document (its lines) into operations. -/
def parseMarkdown (mode : WMode) (lines : List (List Char)) : List ParseOp :=
  parseLoop mode lines.length false lines

/- ---------------------------------------------------------------- -/
/- Batch uploader (index.py:653-705, 840-910, 922-927)              -/
/- ---------------------------------------------------------------- -/

/-- One remote mutation issued by the write path: the title `PATCH`, an
    append-children `POST` (`blockId` target, payload, insertion index),
    or one sub-table creation.  `tableChunk` stands for the skeleton
    creation of one ≤8-data-row sub-table together with its concurrent
    per-cell fill calls (index.py:847-901), which no claim inspects
    individually. -/
inductive Request where
  | patchTitle (text : List Char)
  | append (blockId : String) (children : List WBlock) (index : Int)
  | tableChunk (header : List (List Char)) (rows : List (List (List Char)))
      (colSize : Nat) (widths : List Nat)
deriving DecidableEq

/-- The `while pending_buf` drain (index.py:661-663, 694-696):
    `BATCH_SIZE = 50` slices in order. -/
def batchChunks (buf : List WBlock) : List (List WBlock) :=
  if buf.isEmpty then [] else buf.take 50 :: batchChunks (buf.drop 50)
termination_by buf.length
decreasing_by
  simp only [List.length_drop]
  rename_i h
  simp only [List.isEmpty_iff] at h
  have := List.length_pos.mpr h
  omega

/-- `flush_blocks` (index.py:657-705) as the sequence of requests it
    issues.  `oracle k` is the block id the server reports for the k-th
    created callout container; a non-empty id triggers the dependent
    child-insertion request (index.py:682-690).  `check_resp` aborts the
    process on failure, so the request trace assumes success. -/
def flushAux (page : String) (oracle : Nat → String) :
    List WBlock → List WBlock → Nat → List Request
  | [], pending, _ =>
    (batchChunks pending).map fun b => Request.append page b (-1)
  | blk :: rest, pending, k =>
    if blk.isCallout then
      (batchChunks pending).map (fun b => Request.append page b (-1)) ++
        Request.append page [.calloutContainer] (-1) ::
          ((if oracle k ≠ "" then
              [Request.append (oracle k) [.text (make_text_elements blk.calloutText)] 0]
            else []) ++
            flushAux page oracle rest [] (k + 1))
    else flushAux page oracle rest (pending ++ [blk]) k

def flush_blocks (page : String) (oracle : Nat → String)
    (block_list : List WBlock) : List Request :=
  flushAux page oracle block_list [] 0

/-- `MAX_DATA_ROWS = 8` sub-table splitting (index.py:843, 905-906). -/
def chunksOf8 (rows : List (List (List Char))) : List (List (List (List Char))) :=
  if rows.isEmpty then [] else rows.take 8 :: chunksOf8 (rows.drop 8)
termination_by rows.length
decreasing_by
  simp only [List.length_drop]
  rename_i h
  simp only [List.isEmpty_iff] at h
  have := List.length_pos.mpr h
  omega

def countCallouts (bs : List WBlock) : Nat := (bs.filter WBlock.isCallout).length

/-- The upload side of the write loop over the parsed operations:
    returns (requests issued during the loop, final pending `children`,
    final `counter[0]`, next callout-oracle index).  A flushed batch adds
    its length to the counter and each created container or sub-table
    skeleton adds one, so flushing `children` adds `children.length`
    (index.py:671, 681, 872). -/
def runOps (page : String) (oracle : Nat → String) :
    List ParseOp → List WBlock → Nat → Nat →
      List Request × List WBlock × Nat × Nat
  | [], children, counter, k => ([], children, counter, k)
  | op :: rest, children, counter, k =>
    match op with
    | .titleSet t =>
      let r := runOps page oracle rest children counter k
      (Request.patchTitle t :: r.1, r.2)
    | .desc b => runOps page oracle rest (children ++ [b]) counter k
    | .table h d cs ws =>
      let flushReqs := flushAux page oracle children [] k
      let chunks := chunksOf8 d
      let treqs := chunks.map fun ch => Request.tableChunk h ch cs ws
      let r := runOps page oracle rest []
        (counter + children.length + chunks.length) (k + countCallouts children)
      (flushReqs ++ treqs ++ r.1, r.2)

/-- The write/append operation after reading the content file
    (index.py:707-927): parse the lines, issue the loop's requests, fail
    with the empty-content error when nothing was built (index.py:922-924),
    otherwise flush the remaining descriptors. -/
def processWrite (mode : WMode) (page : String) (oracle : Nat → String)
    (lines : List (List Char)) : Except (List Char) (List Request) :=
  let ops := parseMarkdown mode lines
  let r := runOps page oracle ops [] 0 0
  let children := r.2.1
  let counter := r.2.2.1
  let k := r.2.2.2
  if children.isEmpty ∧ counter = 0 then Except.error (str "内容为空")
  else Except.ok (r.1 ++ flushAux page oracle children [] k)

/- ---------------------------------------------------------------- -/
/- Retry/backoff wrapper `api_call` (index.py:184-207)              -/
/- ---------------------------------------------------------------- -/

/-- A decoded JSON response: its application `code` and message. -/
structure Resp where
  code : Int
  msg : String
deriving DecidableEq

/-- What one transport attempt produces: a parsed 2xx response, or an
    `HTTPError` with its status and (if the error body parses as JSON)
    the parsed body. -/
inductive HttpOutcome where
  | ok (result : Resp)
  | httpError (status : Int) (parsed : Option Resp) (body : String)
deriving DecidableEq

/-- The rate-limit tests of index.py:194 and index.py:200. -/
def signals429 : HttpOutcome → Bool
  | .ok r => r.code == 429
  | .httpError s _ _ => s == 429

/-- What the final (non-retried) attempt returns (index.py:197, 203-206). -/
def finalizeOutcome : HttpOutcome → Resp
  | .ok r => r
  | .httpError _ (some r) _ => r
  | .httpError s none body => ⟨s, body⟩

/-- The `for attempt in range(retries)` loop of `api_call`, returning the
    final response together with the trace of `time.sleep` durations
    (index.py:195, 201).  `remaining` counts the loop iterations left. -/
def apiCallLoop (transport : Nat → HttpOutcome) (retries : Nat) :
    Nat → Nat → Resp × List Nat
  | _, 0 => (⟨429, "rate limited after retries"⟩, [])
  | attempt, remaining + 1 =>
    match transport attempt with
    | .ok result =>
      if result.code = 429 ∧ attempt < retries - 1 then
        let r := apiCallLoop transport retries (attempt + 1) remaining
        (r.1, 2 * (attempt + 1) :: r.2)
      else (result, [])
    | .httpError status parsed body =>
      if status = 429 ∧ attempt < retries - 1 then
        let r := apiCallLoop transport retries (attempt + 1) remaining
        (r.1, 2 * (attempt + 1) :: r.2)
      else
        match parsed with
        | some r => (r, [])
        | none => (⟨status, body⟩, [])

/-- `api_call(method, path, token, body, retries=3)` with the HTTP
    transport abstracted into `transport`. -/
def api_call (transport : Nat → HttpOutcome) (retries : Nat := 3) : Resp × List Nat :=
  apiCallLoop transport retries 0 retries

/- ---------------------------------------------------------------- -/
/- Concrete fixtures used by the counterexamples and witnesses      -/
/- ---------------------------------------------------------------- -/

/-- An element holding just a text run. -/
def tRun (s : String) : Element := ⟨some (str s), none⟩

/-- A synthetic block tree containing one block of every type the
    renderer supports: page, text, heading 1–9, bullet, ordered, code,
    quote, todo, divider, image, table (with its two cell blocks),
    bitable, grid and callout (with its child block). -/
def oneOfEachItems : List Block :=
  [⟨"pg", 1, [("page", .elems [tRun "Title"])], []⟩,
   ⟨"tx", 2, [("text", .elems [tRun "hello"])], []⟩,
   ⟨"h1", 3, [("heading1", .elems [tRun "h1"])], []⟩,
   ⟨"h2", 4, [("heading2", .elems [tRun "h2"])], []⟩,
   ⟨"h3", 5, [("heading3", .elems [tRun "h3"])], []⟩,
   ⟨"h4", 6, [("heading4", .elems [tRun "h4"])], []⟩,
   ⟨"h5", 7, [("heading5", .elems [tRun "h5"])], []⟩,
   ⟨"h6", 8, [("heading6", .elems [tRun "h6"])], []⟩,
   ⟨"h7", 9, [("heading7", .elems [tRun "h7"])], []⟩,
   ⟨"h8", 10, [("heading8", .elems [tRun "h8"])], []⟩,
   ⟨"h9", 11, [("heading9", .elems [tRun "h9"])], []⟩,
   ⟨"bu", 12, [("bullet", .elems [tRun "b"])], []⟩,
   ⟨"od", 13, [("ordered", .elems [tRun "o"])], []⟩,
   ⟨"cd", 14, [("code", .elemsCode [tRun "print(1)"] 48)], []⟩,
   ⟨"qu", 15, [("quote", .elems [tRun "q"])], []⟩,
   ⟨"td", 17, [("todo", .elemsTodo [tRun "t"] true)], []⟩,
   ⟨"dv", 23, [], []⟩,
   ⟨"im", 27, [], []⟩,
   ⟨"tb", 22, [("table", .table 1 2 ["ca", "cb"])], []⟩,
   ⟨"ca", 2, [("text", .elems [tRun "TA"])], []⟩,
   ⟨"cb", 2, [("text", .elems [tRun "TB"])], []⟩,
   ⟨"bt", 18, [], []⟩,
   ⟨"gr", 31, [], []⟩,
   ⟨"cl", 19, [("callout", .elems [])], ["cc"]⟩,
   ⟨"cc", 2, [("text", .elems [tRun "CC"])], []⟩]

/-- The spec's table-reconstruction fixture: `row_size=3, column_size=2`
    and a 5-element flat cell list. -/
def c3Table : Block :=
  ⟨"t3", 22, [("table", .table 3 2 ["c0", "c1", "c2", "c3", "c4"])], []⟩

def c3Map : BlockMap :=
  [("c0", ⟨"c0", 2, [("text", .elems [tRun "A"])], []⟩),
   ("c1", ⟨"c1", 2, [("text", .elems [tRun "B"])], []⟩),
   ("c2", ⟨"c2", 2, [("text", .elems [tRun "C"])], []⟩),
   ("c3", ⟨"c3", 2, [("text", .elems [tRun "D"])], []⟩),
   ("c4", ⟨"c4", 2, [("text", .elems [tRun "E"])], []⟩)]

/-- A block map whose child lists form a two-cycle. -/
def cyclicMap : BlockMap :=
  [("a", ⟨"a", 2, [], ["b"]⟩), ("b", ⟨"b", 2, [], ["a"]⟩)]

/-- A character that can start no alternative of the inline pattern
    of `parse_inline_styles`. -/
def nonMarker (c : Char) : Prop :=
  ¬ c = '*' ∧ ¬ c = '`' ∧ ¬ c = '~' ∧ ¬ c = '['

/-- The number of map keys not yet visited: the quantity that shrinks at
    every recursive descent of the visited-guarded traversals, bounding
    their recursion depth. -/
def unvisitedKeyCount (m : BlockMap) (v : List String) : Nat :=
  (m.map Prod.fst).countP fun k => !(v.contains k)

/- ================================================================ -/
/- Theorems                                                         -/
/- ================================================================ -/

set_option maxRecDepth 10000

theorem dropWhile_append_single (p : Char → Bool) (c : Char) (h : p c = false)
    (xs : List Char) : (xs ++ [c]).dropWhile p = xs.dropWhile p ++ [c] := by
  induction xs with
  | nil => simp [List.dropWhile, h]
  | cons x xs ih =>
    by_cases hx : p x = true
    · simp [List.dropWhile_cons, hx, ih]
    · simp [List.dropWhile_cons, hx]

theorem trimL_cons_not_ws (c : Char) (t : List Char) (h : isWS c = false) :
    trimL (c :: t) = c :: (t.reverse.dropWhile isWS).reverse := by
  unfold trimL
  rw [List.dropWhile_cons]
  simp [h, dropWhile_append_single isWS c h]

theorem matchTitle_none_of_head_ne (c : Char) (t : List Char) (h : ¬ c = '#') :
    matchTitle (c :: t) = none := by
  unfold matchTitle
  split
  · rename_i heq
    injection heq with h1 _
    exact absurd h1 h
  · rfl

theorem parseLoop_cons (mode : WMode) (fuel : Nat) (ts : Bool) (line : List Char)
    (rest : List (List Char)) :
    parseLoop mode (fuel + 1) ts (line :: rest) =
      (parseLine mode ts line rest).1 ++
        parseLoop mode fuel (parseLine mode ts line rest).2.1
          (parseLine mode ts line rest).2.2 := rfl

theorem parseLoop_zero (mode : WMode) (ts : Bool) (lines : List (List Char)) :
    parseLoop mode 0 ts lines = [] := by
  cases lines <;> rfl

theorem parseLine_divider (mode : WMode) (ts : Bool) (line : List Char)
    (rest : List (List Char))
    (hTitle : matchTitle line = none)
    (hFence : startsWithL (str "```") (trimL line) = false)
    (hBlank : (trimL line).isEmpty = false)
    (hDiv : isDividerLine (trimL line) = true) :
    parseLine mode ts line rest = ([ParseOp.desc make_divider_block], ts, rest) := by
  unfold parseLine
  rw [if_neg, if_neg, if_neg, if_pos hDiv]
  · simp [hBlank]
  · simp [hFence]
  · rintro ⟨_, h2, _⟩
    rw [hTitle] at h2
    simp at h2

/-- C9: counterexample.  A horizontal-rule line parses to
    `make_divider_block`, whose type tag is 2 (a plain text block), not
    the divider block type 23 (nor table type 22): the claim's "type tag
    is the divider block type" is false. -/
theorem c9_divider_counterexample :
    parseMarkdown .write [str "---"] = [ParseOp.desc make_divider_block] ∧
    make_divider_block.blockType = some 2 ∧
    make_divider_block.blockType ≠ some 23 ∧
    make_divider_block.blockType ≠ some 22 := by
  decide

/-- C9 (amended): every line whose stripped form is three or more dashes
    or three or more asterisks parses to the divider-placeholder
    descriptor `make_divider_block` — a plain text block (type tag 2)
    holding a drawn horizontal line — rather than a native divider. -/
theorem c9_divider_amended (line : List Char)
    (h : isDividerLine (trimL line) = true) :
    parseMarkdown .write [line] = [ParseOp.desc make_divider_block] ∧
    make_divider_block =
      WBlock.text [⟨str "───────────────────", false, false, false, none⟩] := by
  refine ⟨?_, by decide⟩
  obtain ⟨d, rest, hd⟩ : ∃ d rest, trimL line = d :: rest := by
    cases htl : trimL line with
    | nil => rw [htl] at h; exact absurd h (by decide)
    | cons d rest => exact ⟨d, rest, rfl⟩
  have hdc : d = '-' ∨ d = '*' := by
    rw [hd] at h
    simp only [isDividerLine, Bool.or_eq_true, Bool.and_eq_true, List.all_cons,
      beq_iff_eq] at h
    rcases h with ⟨_, h1, _⟩ | ⟨_, h1, _⟩
    · exact Or.inl h1
    · exact Or.inr h1
  cases line with
  | nil => exact absurd hd (by simp [trimL])
  | cons c t =>
    have hc : ¬ c = '#' := by
      by_cases hw : isWS c = true
      · intro hec
        rw [hec] at hw
        exact absurd hw (by decide)
      · have hcons := trimL_cons_not_ws c t (by simpa using hw)
        rw [hd] at hcons
        injection hcons with h1 _
        intro hec
        rw [hec] at h1
        rcases hdc with h2 | h2 <;> rw [h2] at h1 <;> exact absurd h1 (by decide)
    have hfence : startsWithL (str "```") (trimL (c :: t)) = false := by
      rw [hd]
      rcases hdc with h2 | h2 <;> subst h2 <;> simp [str, startsWithL]
    have hblank : (trimL (c :: t)).isEmpty = false := by
      rw [hd]; rfl
    show parseLoop .write 1 false [c :: t] = [ParseOp.desc make_divider_block]
    rw [parseLoop_cons,
      parseLine_divider .write false (c :: t) []
        (matchTitle_none_of_head_ne c t hc) hfence hblank (hd ▸ h)]
    rfl

/-- C9 (amended) witness at the line `---`. -/
theorem c9_divider_amended_witness :
    isDividerLine (trimL (str "---")) = true ∧
    (parseMarkdown .write [str "---"] = [ParseOp.desc make_divider_block] ∧
      make_divider_block =
        WBlock.text [⟨str "───────────────────", false, false, false, none⟩]) :=
  ⟨by decide, c9_divider_amended (str "---") (by decide)⟩

/-- C3: the claim predicts a 2-column, **3-row** grid whose 6th cell
    (flat index 5) is empty, but `table_block_to_md` clamps
    `row_count = min(3, max(1, 5 // 2)) = 2`: the rendered output is a
    2-row grid (3 Markdown lines, not the 4 a 3-row grid would produce),
    and no 6th cell exists. -/
theorem c3_table_counterexample :
    table_block_to_md c3Table c3Map = str "| A | B |\n| --- | --- |\n| C | D |" ∧
    (splitLines (table_block_to_md c3Table c3Map)).length = 3 ∧
    (splitLines (table_block_to_md c3Table c3Map)).length ≠ 4 := by
  decide

/-- C3 (amended): for `row_size=3, column_size=2` and a 5-element flat
    cell list, rendering yields a 2-column, 2-row grid (row count clamped
    to `min(row_size, max(1, len(cells) // column_size)) = 2`), row 0
    rendered as the Markdown header row; the cell at flat index 4 is
    dropped (removing it leaves the output unchanged). -/
theorem c3_table_amended :
    tableMatrix c3Map ["c0", "c1", "c2", "c3", "c4"] 2 2 =
      [[str "A", str "B"], [str "C", str "D"]] ∧
    table_block_to_md c3Table c3Map = str "| A | B |\n| --- | --- |\n| C | D |" ∧
    table_block_to_md c3Table c3Map =
      table_block_to_md
        ⟨"t3", 22, [("table", .table 3 2 ["c0", "c1", "c2", "c3"])], []⟩ c3Map := by
  decide

/-- C1: counterexample to the round-trip claim.  The synthetic tree
    contains exactly one divider block (type 23), but re-parsing the
    rendered Markdown yields no descriptor whose type tag is 23: the
    divider line `---` re-parses to `make_divider_block`, a plain text
    block, so type tags do not all match and divider is not among the
    claim's excepted types (ordered lists, image/bitable/grid). -/
theorem c1_roundtrip_counterexample :
    (oneOfEachItems.countP fun b => b.block_type == 23) = 1 ∧
    (parseMarkdown .write (splitLines (readRender oneOfEachItems))).all
      (fun op =>
        match op with
        | ParseOp.desc bl => bl.blockType != some 23
        | _ => true) = true := by
  decide

/-- C1 (amended): rendering the synthetic one-of-each tree and
    re-parsing the Markdown round-trips type tag and text content for
    paragraph, heading 1–9, bullet, ordered (restarting at 1), code
    (text preserved; the language tag is re-mapped) and todo blocks,
    while: the page title line becomes a title-update operation; the
    quote and callout blocks become two-phase callout markers carrying
    their text but no type tag; the divider becomes a plain text block
    holding a drawn horizontal line; image/bitable/grid become plain
    paragraphs holding their opaque placeholders; and the table is
    reconstructed as a native-table operation, not a descriptor. -/
theorem c1_roundtrip_amended :
    parseMarkdown .write (splitLines (readRender oneOfEachItems)) =
      [ParseOp.titleSet (str "Title"),
       ParseOp.desc (make_text_block (str "hello")),
       ParseOp.desc (make_heading_block 1 (str "h1")),
       ParseOp.desc (make_heading_block 2 (str "h2")),
       ParseOp.desc (make_heading_block 3 (str "h3")),
       ParseOp.desc (make_heading_block 4 (str "h4")),
       ParseOp.desc (make_heading_block 5 (str "h5")),
       ParseOp.desc (make_heading_block 6 (str "h6")),
       ParseOp.desc (make_heading_block 7 (str "h7")),
       ParseOp.desc (make_heading_block 8 (str "h8")),
       ParseOp.desc (make_heading_block 9 (str "h9")),
       ParseOp.desc (make_bullet_block (str "b")),
       ParseOp.desc (make_ordered_block (str "o")),
       ParseOp.desc (make_code_block (str "print(1)") (str "Python")),
       ParseOp.desc (make_quote_block (str "q")),
       ParseOp.desc (make_todo_block (str "t") true),
       ParseOp.desc make_divider_block,
       ParseOp.desc (make_text_block (str "[图片]")),
       ParseOp.table [str "TA", str "TB"] [] 2 [350, 350],
       ParseOp.desc (make_text_block (str "[多维表格]")),
       ParseOp.desc (make_text_block (str "[分栏]")),
       ParseOp.desc (make_quote_block (str "CC"))] := by
  decide

theorem batchChunks_eq (buf : List WBlock) :
    batchChunks buf =
      if buf.isEmpty then [] else buf.take 50 :: batchChunks (buf.drop 50) := by
  rw [batchChunks]

theorem isEmpty_false_of_ne_nil {α : Type} {l : List α} (h : l ≠ []) :
    l.isEmpty = false := by
  cases l with
  | nil => exact absurd rfl h
  | cons _ _ => rfl

theorem batchChunks_flatten (buf : List WBlock) : (batchChunks buf).flatten = buf := by
  have key : ∀ n (l : List WBlock), l.length ≤ n → (batchChunks l).flatten = l := by
    intro n
    induction n with
    | zero =>
      intro l hl
      have : l = [] := List.eq_nil_of_length_eq_zero (Nat.le_zero.mp hl)
      subst this
      rw [batchChunks_eq]
      simp
    | succ n ih =>
      intro l hl
      rw [batchChunks_eq]
      by_cases he : l.isEmpty = true
      · rw [if_pos he]
        rw [List.isEmpty_iff] at he
        simp [he]
      · rw [if_neg he]
        have hnil : l ≠ [] := by simpa [List.isEmpty_iff] using he
        have hlp : 0 < l.length := List.length_pos.mpr hnil
        have hd : (l.drop 50).length ≤ n := by
          rw [List.length_drop]
          omega
        simp only [List.flatten_cons, ih (l.drop 50) hd, List.take_append_drop]
  exact key buf.length buf le_rfl

theorem flushAux_nil (page : String) (oracle : Nat → String) (pending : List WBlock)
    (k : Nat) :
    flushAux page oracle [] pending k =
      (batchChunks pending).map fun b => Request.append page b (-1) := rfl

theorem flushAux_cons (page : String) (oracle : Nat → String) (blk : WBlock)
    (rest pending : List WBlock) (k : Nat) :
    flushAux page oracle (blk :: rest) pending k =
      if blk.isCallout then
        (batchChunks pending).map (fun b => Request.append page b (-1)) ++
          Request.append page [.calloutContainer] (-1) ::
            ((if oracle k ≠ "" then
                [Request.append (oracle k) [.text (make_text_elements blk.calloutText)] 0]
              else []) ++
              flushAux page oracle rest [] (k + 1))
      else flushAux page oracle rest (pending ++ [blk]) k := rfl

theorem flushAux_no_callout (page : String) (oracle : Nat → String)
    (bs : List WBlock) (pending : List WBlock) (k : Nat)
    (h : ∀ b ∈ bs, b.isCallout = false) :
    flushAux page oracle bs pending k =
      (batchChunks (pending ++ bs)).map fun b => Request.append page b (-1) := by
  induction bs generalizing pending with
  | nil => simp [flushAux_nil]
  | cons blk rest ih =>
    rw [flushAux_cons, if_neg (by simp [h blk (List.mem_cons_self blk rest)]),
      ih (pending ++ [blk]) (fun b hb => h b (List.mem_cons_of_mem _ hb))]
    simp

theorem flushAux_callout_split (page : String) (oracle : Nat → String)
    (pre post : List WBlock) (t : List Char) :
    ∀ (pending : List WBlock) (k : Nat),
      (∀ b ∈ pre, b.isCallout = false) → oracle k ≠ "" →
      flushAux page oracle (pre ++ WBlock.calloutMarker t :: post) pending k =
        (batchChunks (pending ++ pre)).map (fun b => Request.append page b (-1)) ++
          Request.append page [WBlock.calloutContainer] (-1) ::
          Request.append (oracle k) [WBlock.text (make_text_elements t)] 0 ::
          flushAux page oracle post [] (k + 1) := by
  induction pre with
  | nil =>
    intro pending k _ hk
    rw [List.nil_append, flushAux_cons, if_pos (by rfl), if_pos hk]
    simp [WBlock.calloutText]
  | cons blk rest ih =>
    intro pending k hpre hk
    rw [List.cons_append, flushAux_cons,
      if_neg (by simp [hpre blk (List.mem_cons_self blk rest)]),
      ih (pending ++ [blk]) k (fun b hb => hpre b (List.mem_cons_of_mem _ hb)) hk]
    simp

/-- C4: 120 plain-paragraph descriptors with batch size 50 produce
    exactly 3 append-children requests of 50, 50 and 20 descriptors, in
    that order, whose concatenation is the input sequence (order
    preserved). -/
theorem c4_batch_flushing (page : String) (oracle : Nat → String) (bs : List WBlock)
    (hlen : bs.length = 120)
    (hplain : ∀ b ∈ bs, ∃ els, b = WBlock.text els) :
    flush_blocks page oracle bs =
      [Request.append page (bs.take 50) (-1),
       Request.append page ((bs.drop 50).take 50) (-1),
       Request.append page (bs.drop 100) (-1)] ∧
    (bs.take 50).length = 50 ∧ ((bs.drop 50).take 50).length = 50 ∧
    (bs.drop 100).length = 20 ∧
    bs.take 50 ++ ((bs.drop 50).take 50 ++ bs.drop 100) = bs := by
  have hcall : ∀ b ∈ bs, b.isCallout = false := by
    intro b hb
    obtain ⟨els, he⟩ := hplain b hb
    subst he
    rfl
  have hne : bs.isEmpty = false := by
    refine isEmpty_false_of_ne_nil ?_
    intro h
    rw [h] at hlen
    simp at hlen
  have hd50 : (bs.drop 50).length = 70 := by rw [List.length_drop, hlen]
  have hd50ne : (bs.drop 50).isEmpty = false := by
    refine isEmpty_false_of_ne_nil ?_
    intro h
    rw [h] at hd50
    simp at hd50
  have hdd : (bs.drop 50).drop 50 = bs.drop 100 := by rw [List.drop_drop]
  have hd100 : (bs.drop 100).length = 20 := by rw [List.length_drop, hlen]
  have hd100ne : (bs.drop 100).isEmpty = false := by
    refine isEmpty_false_of_ne_nil ?_
    intro h
    rw [h] at hd100
    simp at hd100
  have hd100take : (bs.drop 100).take 50 = bs.drop 100 :=
    List.take_of_length_le (by rw [hd100]; omega)
  have hd150 : (bs.drop 100).drop 50 = [] := by
    rw [List.drop_eq_nil_iff, hd100]
    omega
  have hchunks : batchChunks bs =
      [bs.take 50, (bs.drop 50).take 50, bs.drop 100] := by
    rw [batchChunks_eq, if_neg (by simp [hne]),
      batchChunks_eq, if_neg (by simp [hd50ne]), hdd,
      batchChunks_eq, if_neg (by simp [hd100ne]), hd100take, hd150,
      batchChunks_eq]
    simp
  refine ⟨?_, ?_, ?_, hd100, ?_⟩
  · rw [flush_blocks, flushAux_no_callout page oracle bs [] 0 hcall,
      List.nil_append, hchunks]
    rfl
  · simp [List.length_take, hlen]
  · simp [List.length_take, hd50]
  · calc bs.take 50 ++ ((bs.drop 50).take 50 ++ bs.drop 100)
        = bs.take 50 ++ ((bs.drop 50).take 50 ++ (bs.drop 50).drop 50) := by rw [hdd]
      _ = bs.take 50 ++ bs.drop 50 := by rw [List.take_append_drop]
      _ = bs := List.take_append_drop 50 bs

/-- C4 witness: 120 concrete plain paragraph descriptors. -/
theorem c4_batch_flushing_witness :
    (List.replicate 120 (make_text_block (str "p"))).length = 120 ∧
    (∀ b ∈ List.replicate 120 (make_text_block (str "p")), ∃ els, b = WBlock.text els) ∧
    flush_blocks "pg" (fun _ => "")
        (List.replicate 120 (make_text_block (str "p"))) =
      [Request.append "pg" ((List.replicate 120 (make_text_block (str "p"))).take 50) (-1),
       Request.append "pg" (((List.replicate 120 (make_text_block (str "p"))).drop 50).take 50) (-1),
       Request.append "pg" ((List.replicate 120 (make_text_block (str "p"))).drop 100) (-1)] :=
  ⟨by simp,
   fun b hb => ⟨make_text_elements (str "p"), by
     rw [List.eq_of_mem_replicate hb]; rfl⟩,
   (c4_batch_flushing "pg" (fun _ => "") _ (by simp)
     (fun b hb => ⟨make_text_elements (str "p"), by
       rw [List.eq_of_mem_replicate hb]; rfl⟩)).1⟩

/-- C5: whenever a two-phase (quote/callout) descriptor is reached, the
    buffered non-two-phase descriptors are flushed first in 50-sized
    batches whose concatenation is exactly the buffer (relative order
    preserved), then one request creates the empty callout container,
    then a second request inserts the descriptor's text as the
    container's first child (index 0), and only then does processing of
    the remaining descriptors continue. -/
theorem c5_two_phase_order (page : String) (oracle : Nat → String)
    (pre post : List WBlock) (t : List Char)
    (hpre : ∀ b ∈ pre, b.isCallout = false)
    (hid : oracle 0 ≠ "") :
    flush_blocks page oracle (pre ++ WBlock.calloutMarker t :: post) =
      (batchChunks pre).map (fun b => Request.append page b (-1)) ++
        Request.append page [WBlock.calloutContainer] (-1) ::
        Request.append (oracle 0) [WBlock.text (make_text_elements t)] 0 ::
        flushAux page oracle post [] 1 ∧
    (batchChunks pre).flatten = pre := by
  refine ⟨?_, batchChunks_flatten pre⟩
  rw [flush_blocks, flushAux_callout_split page oracle pre post t [] 0 hpre hid,
    List.nil_append]

/-- C5 witness: two buffered paragraphs, one quote marker, one trailing
    paragraph. -/
theorem c5_two_phase_order_witness :
    (∀ b ∈ [make_text_block (str "a"), make_text_block (str "b")],
      b.isCallout = false) ∧
    (fun _ : Nat => "cid") 0 ≠ "" ∧
    flush_blocks "pg" (fun _ => "cid")
        ([make_text_block (str "a"), make_text_block (str "b")] ++
          WBlock.calloutMarker (str "q") :: [make_text_block (str "c")]) =
      (batchChunks [make_text_block (str "a"), make_text_block (str "b")]).map
          (fun b => Request.append "pg" b (-1)) ++
        Request.append "pg" [WBlock.calloutContainer] (-1) ::
        Request.append "cid" [WBlock.text (make_text_elements (str "q"))] 0 ::
        flushAux "pg" (fun _ => "cid") [make_text_block (str "c")] [] 1 :=
  ⟨by decide, by decide,
   (c5_two_phase_order "pg" (fun _ => "cid")
     [make_text_block (str "a"), make_text_block (str "b")]
     [make_text_block (str "c")] (str "q") (by decide) (by decide)).1⟩

theorem apiCallLoop_succ (t : Nat → HttpOutcome) (retries a rem : Nat) :
    apiCallLoop t retries a (rem + 1) =
      match t a with
      | .ok result =>
        if result.code = 429 ∧ a < retries - 1 then
          ((apiCallLoop t retries (a + 1) rem).1,
           2 * (a + 1) :: (apiCallLoop t retries (a + 1) rem).2)
        else (result, [])
      | .httpError status parsed body =>
        if status = 429 ∧ a < retries - 1 then
          ((apiCallLoop t retries (a + 1) rem).1,
           2 * (a + 1) :: (apiCallLoop t retries (a + 1) rem).2)
        else
          match parsed with
          | some r => (r, [])
          | none => (⟨status, body⟩, []) := rfl

theorem apiCallLoop_retry_step (t : Nat → HttpOutcome) (retries a rem : Nat)
    (h : signals429 (t a) = true) (hlt : a < retries - 1) :
    apiCallLoop t retries a (rem + 1) =
      ((apiCallLoop t retries (a + 1) rem).1,
       2 * (a + 1) :: (apiCallLoop t retries (a + 1) rem).2) := by
  cases ho : t a with
  | ok r0 =>
    have hc : r0.code = 429 := by
      rw [ho] at h
      simpa [signals429] using h
    simp only [apiCallLoop_succ, ho]
    rw [if_pos ⟨hc, hlt⟩]
  | httpError s p b =>
    have hc : s = 429 := by
      rw [ho] at h
      simpa [signals429] using h
    simp only [apiCallLoop_succ, ho]
    rw [if_pos ⟨hc, hlt⟩]

theorem apiCallLoop_congr (t t2 : Nat → HttpOutcome) (retries : Nat) :
    ∀ (rem a : Nat), (∀ n, a ≤ n → n < a + rem → t n = t2 n) →
      apiCallLoop t retries a rem = apiCallLoop t2 retries a rem := by
  intro rem
  induction rem with
  | zero => intro a _; rfl
  | succ rem ih =>
    intro a h
    have h0 : t a = t2 a := h a le_rfl (by omega)
    have hih := ih (a + 1) (fun n hn hn2 => h n (by omega) (by omega))
    simp only [apiCallLoop_succ, h0, hih]

/-- C7: the retry wrapper (a) retries only on rate-limit signals,
    sleeping 2s then 4s, and a 429 on just the first two of the three
    attempts surfaces the third attempt's successful response unchanged;
    (b) an HTTP failure whose status is not 429 returns immediately with
    no retry and no sleep — the parsed error body when it parses as
    JSON, otherwise a structured payload of the transport status code
    and message; and (c) at most 3 attempts are ever consulted: the
    result depends only on attempts 0, 1 and 2. -/
theorem c7_api_call_retry (transport : Nat → HttpOutcome) :
    (∀ r : Resp, signals429 (transport 0) = true → signals429 (transport 1) = true →
      transport 2 = HttpOutcome.ok r → api_call transport = (r, [2, 4])) ∧
    (∀ (s : Int) (r : Resp) (body : String), s ≠ 429 →
      transport 0 = HttpOutcome.httpError s (some r) body →
      api_call transport = (r, [])) ∧
    (∀ (s : Int) (body : String), s ≠ 429 →
      transport 0 = HttpOutcome.httpError s none body →
      api_call transport = (⟨s, body⟩, [])) ∧
    (∀ transport2 : Nat → HttpOutcome, (∀ n, n < 3 → transport n = transport2 n) →
      api_call transport = api_call transport2) := by
  refine ⟨?_, ?_, ?_, ?_⟩
  · intro r h0 h1 h2
    have e0 : apiCallLoop transport 3 0 3 =
        ((apiCallLoop transport 3 1 2).1, 2 :: (apiCallLoop transport 3 1 2).2) := by
      have := apiCallLoop_retry_step transport 3 0 2 h0 (by omega)
      simpa using this
    have e1 : apiCallLoop transport 3 1 2 =
        ((apiCallLoop transport 3 2 1).1, 4 :: (apiCallLoop transport 3 2 1).2) := by
      have := apiCallLoop_retry_step transport 3 1 1 h1 (by omega)
      simpa using this
    have e2 : apiCallLoop transport 3 2 1 = (r, []) := by
      simp only [apiCallLoop_succ, h2]
      rw [if_neg]
      rintro ⟨_, hh⟩
      omega
    show apiCallLoop transport 3 0 3 = (r, [2, 4])
    rw [e0, e1, e2]
  · intro s r body hs h0
    show apiCallLoop transport 3 0 3 = (r, [])
    simp only [apiCallLoop_succ, h0]
    rw [if_neg]
    rintro ⟨hh, _⟩
    exact hs hh
  · intro s body hs h0
    show apiCallLoop transport 3 0 3 = (⟨s, body⟩, [])
    simp only [apiCallLoop_succ, h0]
    rw [if_neg]
    rintro ⟨hh, _⟩
    exact hs hh
  · intro transport2 h
    exact apiCallLoop_congr transport transport2 3 3 0 (fun n _ hn2 => h n (by omega))

/-- C7 witness: a transport that throttles twice then succeeds, and an
    immediate non-429 failure with an unparsable body. -/
theorem c7_api_call_retry_witness :
    (signals429 ((fun n => if n < 2 then HttpOutcome.httpError 429 none "slow"
        else HttpOutcome.ok ⟨0, "ok"⟩) 0) = true ∧
     signals429 ((fun n => if n < 2 then HttpOutcome.httpError 429 none "slow"
        else HttpOutcome.ok ⟨0, "ok"⟩) 1) = true ∧
     api_call (fun n => if n < 2 then HttpOutcome.httpError 429 none "slow"
        else HttpOutcome.ok ⟨0, "ok"⟩) = (⟨0, "ok"⟩, [2, 4])) ∧
    ((500 : Int) ≠ 429 ∧
     api_call (fun _ => HttpOutcome.httpError 500 none "boom") = (⟨500, "boom"⟩, [])) :=
  ⟨⟨by decide, by decide,
    (c7_api_call_retry _).1 ⟨0, "ok"⟩ (by decide) (by decide) (by decide)⟩,
   ⟨by decide,
    (c7_api_call_retry _).2.2.1 500 "boom" (by decide) (by decide)⟩⟩

theorem matchTitle_none_of_trim_nil (line : List Char) (h : trimL line = []) :
    matchTitle line = none := by
  cases line with
  | nil => rfl
  | cons c t =>
    by_cases hc : c = '#'
    · subst hc
      rw [trimL_cons_not_ws '#' t (by decide)] at h
      simp at h
    · exact matchTitle_none_of_head_ne c t hc

theorem parseLine_blank (mode : WMode) (ts : Bool) (line : List Char)
    (rest : List (List Char))
    (hTitle : matchTitle line = none)
    (hBlank : (trimL line).isEmpty = true) :
    parseLine mode ts line rest = ([], ts, rest) := by
  have hnil : trimL line = [] := by simpa [List.isEmpty_iff] using hBlank
  unfold parseLine
  rw [if_neg, if_neg, if_pos hBlank]
  · rw [hnil]
    decide
  · rintro ⟨_, h2, _⟩
    rw [hTitle] at h2
    simp at h2

theorem parseLoop_all_blank (mode : WMode) (ts : Bool) (lines : List (List Char))
    (h : ∀ l ∈ lines, trimL l = []) :
    parseLoop mode lines.length ts lines = [] := by
  induction lines with
  | nil => rfl
  | cons line rest ih =>
    have hb : (trimL line).isEmpty = true := by
      rw [h line (List.mem_cons_self line rest)]
      rfl
    show parseLoop mode (rest.length + 1) ts (line :: rest) = []
    rw [parseLoop_cons,
      parseLine_blank mode ts line rest
        (matchTitle_none_of_trim_nil line (h line (List.mem_cons_self line rest))) hb]
    simpa using ih (fun l hl => h l (List.mem_cons_of_mem _ hl))

/-- C10: for both the write and the append operation, content whose
    lines are all blank parses to no operations at all, and the
    operation fails with the empty-content error before issuing any
    request (the error branch precedes the final flush, and the loop
    issued nothing). -/
theorem c10_empty_content (mode : WMode) (page : String) (oracle : Nat → String)
    (lines : List (List Char)) (h : ∀ l ∈ lines, trimL l = []) :
    parseMarkdown mode lines = [] ∧
    processWrite mode page oracle lines = Except.error (str "内容为空") := by
  have hp : parseMarkdown mode lines = [] := parseLoop_all_blank mode false lines h
  refine ⟨hp, ?_⟩
  unfold processWrite
  rw [hp]
  rfl

/-- C10 witness: a document of one empty and one whitespace line. -/
theorem c10_empty_content_witness :
    (∀ l ∈ [([] : List Char), [' ', '\t']], trimL l = []) ∧
    parseMarkdown .write [([] : List Char), [' ', '\t']] = [] ∧
    processWrite .write "pg" (fun _ => "") [([] : List Char), [' ', '\t']] =
      Except.error (str "内容为空") :=
  ⟨by decide,
   c10_empty_content .write "pg" (fun _ => "") [([] : List Char), [' ', '\t']]
     (by decide)⟩

theorem tableMatrix_length (m : BlockMap) (cells : List String) (rc csN : Nat) :
    (tableMatrix m cells rc csN).length = rc := by
  simp [tableMatrix]

theorem tableMatrix_row_length (m : BlockMap) (cells : List String) (rc csN : Nat) :
    ∀ row ∈ tableMatrix m cells rc csN, row.length = csN := by
  intro row hrow
  simp only [tableMatrix, List.mem_map] at hrow
  obtain ⟨r, _, hr⟩ := hrow
  simp [← hr]

theorem tableMatrix_take (m : BlockMap) (cells : List String) (rc csN : Nat) :
    tableMatrix m cells rc csN = tableMatrix m (cells.take (rc * csN)) rc csN := by
  unfold tableMatrix
  refine List.map_congr_left ?_
  intro r _
  refine List.map_congr_left ?_
  intro c _
  have hmin : min (cells.take (rc * csN)).length (rc * csN) =
      min cells.length (rc * csN) := by
    rw [List.length_take]
    omega
  rw [hmin]
  by_cases hidx : r * csN + c < min cells.length (rc * csN)
  · have hlt : r * csN + c < rc * csN := by omega
    rw [if_pos hidx, if_pos hidx, List.getD_eq_getElem?_getD,
      List.getD_eq_getElem?_getD, List.getElem?_take, if_pos hlt]
  · rw [if_neg hidx, if_neg hidx]

/-- C2: for every table block whose payload has positive `row_size`,
    positive `column_size` and a non-empty flat cell-id list, the grid
    has exactly `min(row_size, max(1, len(cells) // column_size))` rows
    and `column_size` columns, cell ids at flat index
    `≥ row_count * column_size` are dropped (truncating the cell list
    there leaves the grid unchanged), and the rendered output is exactly
    that grid's Markdown. -/
theorem c2_table_grid (m : BlockMap) (b : Block) (rs cs : Int) (cells : List String)
    (hb : tablePayload b = (rs, cs, cells))
    (h1 : 0 < rs) (h2 : 0 < cs) (h3 : cells ≠ []) :
    (tableMatrix m cells (tableRowCount rs cs cells) cs.toNat).length =
      tableRowCount rs cs cells ∧
    (∀ row ∈ tableMatrix m cells (tableRowCount rs cs cells) cs.toNat,
      row.length = cs.toNat) ∧
    tableMatrix m cells (tableRowCount rs cs cells) cs.toNat =
      tableMatrix m (cells.take (tableRowCount rs cs cells * cs.toNat))
        (tableRowCount rs cs cells) cs.toNat ∧
    table_block_to_md b m =
      tableRender (tableMatrix m cells (tableRowCount rs cs cells) cs.toNat)
        cs.toNat := by
  refine ⟨tableMatrix_length m cells _ _, tableMatrix_row_length m cells _ _,
    tableMatrix_take m cells _ _, ?_⟩
  have hrc : 1 ≤ tableRowCount rs cs cells := by
    unfold tableRowCount
    omega
  have hmat : (tableMatrix m cells (tableRowCount rs cs cells) cs.toNat).isEmpty = false := by
    refine isEmpty_false_of_ne_nil ?_
    intro hh
    have := tableMatrix_length m cells (tableRowCount rs cs cells) cs.toNat
    rw [hh] at this
    simp at this
    omega
  unfold table_block_to_md
  rw [hb]
  simp only []
  rw [if_neg, if_neg]
  · simp [hmat]
  · push_neg
    refine ⟨by omega, by omega, ?_⟩
    simp [isEmpty_false_of_ne_nil h3]

/-- C2 witness at the `row_size=3, column_size=2`, 5-cell fixture. -/
theorem c2_table_grid_witness :
    tablePayload c3Table = (3, 2, ["c0", "c1", "c2", "c3", "c4"]) ∧
    (0 : Int) < 3 ∧ (0 : Int) < 2 ∧
    (["c0", "c1", "c2", "c3", "c4"] : List String) ≠ [] ∧
    table_block_to_md c3Table c3Map =
      tableRender
        (tableMatrix c3Map ["c0", "c1", "c2", "c3", "c4"]
          (tableRowCount 3 2 ["c0", "c1", "c2", "c3", "c4"]) (Int.toNat 2))
        (Int.toNat 2) :=
  ⟨by decide, by decide, by decide, by decide,
   (c2_table_grid c3Map c3Table 3 2 ["c0", "c1", "c2", "c3", "c4"]
     (by decide) (by decide) (by decide) (by decide)).2.2.2⟩

theorem tryBold_ne (c : Char) (xs : List Char) (h : ¬ c = '*') :
    tryBold (c :: xs) = none := by
  unfold tryBold
  split
  · rename_i heq
    injection heq with h1 _
    exact absurd h1 h
  · rfl

theorem tryCode_ne (c : Char) (xs : List Char) (h : ¬ c = '`') :
    tryCode (c :: xs) = none := by
  unfold tryCode
  split
  · rename_i heq
    injection heq with h1 _
    exact absurd h1 h
  · rfl

theorem tryStrike_ne (c : Char) (xs : List Char) (h : ¬ c = '~') :
    tryStrike (c :: xs) = none := by
  unfold tryStrike
  split
  · rename_i heq
    injection heq with h1 _
    exact absurd h1 h
  · rfl

theorem tryLink_ne (c : Char) (xs : List Char) (h : ¬ c = '[') :
    tryLink (c :: xs) = none := by
  unfold tryLink
  split
  · rename_i heq
    injection heq with h1 _
    exact absurd h1 h
  · rfl

theorem tryMatchHere_ne (c : Char) (xs : List Char) (h : nonMarker c) :
    tryMatchHere (c :: xs) = none := by
  unfold tryMatchHere
  rw [tryBold_ne c xs h.1, tryCode_ne c xs h.2.1, tryStrike_ne c xs h.2.2.1,
    tryLink_ne c xs h.2.2.2]

theorem splitAtMatch_gap (pre rest0 : List Char)
    (hpre : ∀ c ∈ pre, nonMarker c) :
    splitAtMatch (pre ++ rest0) =
      (pre ++ (splitAtMatch rest0).1, (splitAtMatch rest0).2) := by
  induction pre with
  | nil => simp
  | cons c pre ih =>
    rw [List.cons_append]
    show (match tryMatchHere (c :: (pre ++ rest0)) with
      | some (el, rem) => ([], some (el, rem))
      | none =>
        let p := splitAtMatch (pre ++ rest0)
        (c :: p.1, p.2)) = _
    rw [tryMatchHere_ne c _ (hpre c (List.mem_cons_self c pre))]
    simp only [ih (fun x hx => hpre x (List.mem_cons_of_mem _ hx))]
    rfl

theorem splitAtFirst_append (ch : Char) (pre suf : List Char) (h : ch ∉ pre) :
    splitAtFirst ch (pre ++ (ch :: suf)) = some (pre, suf) := by
  induction pre with
  | nil => simp [splitAtFirst]
  | cons x xs ih =>
    have hx : (x == ch) = false := by
      simp only [beq_eq_false_iff_ne, ne_eq]
      intro hh
      exact h (hh ▸ List.mem_cons_self x xs)
    rw [List.cons_append]
    show (if x == ch then some ([], xs ++ (ch :: suf))
      else (splitAtFirst ch (xs ++ (ch :: suf))).map fun p => (x :: p.1, p.2)) = _
    rw [hx, ih (fun hh => h (List.mem_cons_of_mem _ hh))]
    rfl

theorem tryLink_match (label url rest : List Char)
    (hlab : label ≠ []) (hlab2 : ']' ∉ label)
    (hurl : url ≠ []) (hurl2 : ')' ∉ url) :
    tryLink ('[' :: (label ++ (']' :: ('(' :: (url ++ (')' :: rest)))))) =
      some (linkRun label url, rest) := by
  show (match splitAtFirst ']' (label ++ (']' :: ('(' :: (url ++ (')' :: rest))))) with
    | some (lab, rem1) =>
      if lab.isEmpty then none
      else
        match rem1 with
        | '(' :: rem2 =>
          match splitAtFirst ')' rem2 with
          | some (u, rem3) =>
            if u.isEmpty then none else some (linkRun lab u, rem3)
          | none => none
        | _ => none
    | none => none) = some (linkRun label url, rest)
  rw [splitAtFirst_append ']' label ('(' :: (url ++ (')' :: rest))) hlab2]
  simp only [isEmpty_false_of_ne_nil hlab, Bool.false_eq_true, if_false,
    splitAtFirst_append ')' url rest hurl2, isEmpty_false_of_ne_nil hurl]

theorem tryMatchHere_link (label url rest : List Char)
    (hlab : label ≠ []) (hlab2 : ']' ∉ label)
    (hurl : url ≠ []) (hurl2 : ')' ∉ url) :
    tryMatchHere ('[' :: (label ++ (']' :: ('(' :: (url ++ (')' :: rest)))))) =
      some (linkRun label url, rest) := by
  unfold tryMatchHere
  rw [tryBold_ne _ _ (by decide), tryCode_ne _ _ (by decide),
    tryStrike_ne _ _ (by decide), tryLink_match label url rest hlab hlab2 hurl hurl2]

theorem inlineScan_plain (fuel : Nat) (s : List Char)
    (hs : ∀ c ∈ s, nonMarker c) (hf : 1 ≤ fuel) :
    inlineScan fuel s =
      if s.isEmpty then [] else [⟨s, false, false, false, none⟩] := by
  obtain ⟨f1, rfl⟩ : ∃ f1, fuel = f1 + 1 := ⟨fuel - 1, by omega⟩
  cases s with
  | nil => rfl
  | cons c s =>
    have hsp : splitAtMatch (c :: s) = (c :: s, none) := by
      have := splitAtMatch_gap (c :: s) [] hs
      simpa [splitAtMatch] using this
    show (match splitAtMatch (c :: s) with
      | (gap, none) =>
        if gap.isEmpty then [] else [WElem.mk gap false false false none]
      | (gap, some (el, rem)) =>
        (if gap.isEmpty then [] else [WElem.mk gap false false false none]) ++
          el :: inlineScan f1 rem) = _
    rw [hsp]

theorem inlineScan_link (f1 : Nat) (pre label url suf : List Char)
    (hpre : ∀ c ∈ pre, nonMarker c) (hsuf : ∀ c ∈ suf, nonMarker c)
    (hlab : label ≠ []) (hlab2 : ']' ∉ label)
    (hurl : url ≠ []) (hurl2 : ')' ∉ url) :
    inlineScan (f1 + 2)
        (pre ++ ('[' :: (label ++ (']' :: ('(' :: (url ++ (')' :: suf))))))) =
      (if pre.isEmpty then [] else [WElem.mk pre false false false none]) ++
        linkRun label url ::
        (if suf.isEmpty then [] else [WElem.mk suf false false false none]) := by
  have hm : splitAtMatch ('[' :: (label ++ (']' :: ('(' :: (url ++ (')' :: suf)))))) =
      ([], some (linkRun label url, suf)) := by
    show (match tryMatchHere
        ('[' :: (label ++ (']' :: ('(' :: (url ++ (')' :: suf)))))) with
      | some (el, rem) => ([], some (el, rem))
      | none =>
        let p := splitAtMatch (label ++ (']' :: ('(' :: (url ++ (')' :: suf)))))
        ('[' :: p.1, p.2)) = _
    rw [tryMatchHere_link label url suf hlab hlab2 hurl hurl2]
  have hsp : splitAtMatch
      (pre ++ ('[' :: (label ++ (']' :: ('(' :: (url ++ (')' :: suf))))))) =
      (pre, some (linkRun label url, suf)) := by
    rw [splitAtMatch_gap pre _ hpre, hm]
    simp
  cases pre with
  | nil =>
    show (match splitAtMatch
        ([] ++ ('[' :: (label ++ (']' :: ('(' :: (url ++ (')' :: suf))))))) with
      | (gap, none) =>
        if gap.isEmpty then [] else [WElem.mk gap false false false none]
      | (gap, some (el, rem)) =>
        (if gap.isEmpty then [] else [WElem.mk gap false false false none]) ++
          el :: inlineScan (f1 + 1) rem) = _
    rw [hsp]
    simp only [inlineScan_plain (f1 + 1) suf hsuf (by omega)]
  | cons p ps =>
    rw [List.cons_append]
    show (match splitAtMatch
        (p :: (ps ++ ('[' :: (label ++ (']' :: ('(' :: (url ++ (')' :: suf)))))))) with
      | (gap, none) =>
        if gap.isEmpty then [] else [WElem.mk gap false false false none]
      | (gap, some (el, rem)) =>
        (if gap.isEmpty then [] else [WElem.mk gap false false false none]) ++
          el :: inlineScan (f1 + 1) rem) = _
    rw [← List.cons_append, hsp]
    simp only [inlineScan_plain (f1 + 1) suf hsuf (by omega)]

/-- C8: on a line made of a plain prefix, a Markdown link whose label
    contains no `]` and whose target contains no `)`, and a plain
    suffix, the inline parser emits the prefix as a plain run, then one
    run for the link, then the suffix as a plain run; the link run is a
    styled link carrying the URL exactly when the target starts with
    `http://` or `https://`, and otherwise a plain, unstyled run holding
    the literal bracketed text `[label](url)`. -/
theorem c8_link_rendering (pre label url suf : List Char)
    (hpre : ∀ c ∈ pre, nonMarker c) (hsuf : ∀ c ∈ suf, nonMarker c)
    (hlab : label ≠ []) (hlab2 : ']' ∉ label)
    (hurl : url ≠ []) (hurl2 : ')' ∉ url) :
    parse_inline_styles
        (pre ++ ('[' :: (label ++ (']' :: ('(' :: (url ++ (')' :: suf))))))) =
      (if pre.isEmpty then [] else [WElem.mk pre false false false none]) ++
        linkRun label url ::
        (if suf.isEmpty then [] else [WElem.mk suf false false false none]) ∧
    (isAbsoluteHttp url = false →
      linkRun label url =
        ⟨'[' :: label ++ ']' :: '(' :: url ++ [')'], false, false, false, none⟩) ∧
    (isAbsoluteHttp url = true →
      linkRun label url = ⟨label, false, false, false, some url⟩) := by
  refine ⟨?_, fun hab => by simp [linkRun, hab], fun hab => by simp [linkRun, hab]⟩
  have htne : pre ++ ('[' :: (label ++ (']' :: ('(' :: (url ++ (')' :: suf)))))) ≠ [] := by
    intro hh
    rcases List.append_eq_nil.mp hh with ⟨_, h2⟩
    exact absurd h2 (by simp)
  have hlen : 2 ≤ (pre ++ ('[' :: (label ++ (']' :: ('(' :: (url ++ (')' :: suf))))))).length := by
    simp only [List.length_append, List.length_cons]
    omega
  obtain ⟨f1, hf1⟩ : ∃ f1,
      (pre ++ ('[' :: (label ++ (']' :: ('(' :: (url ++ (')' :: suf))))))).length =
        f1 + 2 :=
    ⟨(pre ++ ('[' :: (label ++ (']' :: ('(' :: (url ++ (')' :: suf))))))).length - 2,
     by omega⟩
  unfold parse_inline_styles
  rw [if_neg (by simp [isEmpty_false_of_ne_nil htne]), hf1,
    inlineScan_link f1 pre label url suf hpre hsuf hlab hlab2 hurl hurl2,
    if_neg (by simp [List.isEmpty_iff])]

/-- C8 witness: the spec's two example lines, `[x](./local)` and
    `[x](http://e.com)`. -/
theorem c8_link_rendering_witness :
    (("x".toList : List Char) ≠ [] ∧ ("./local".toList : List Char) ≠ [] ∧
      parse_inline_styles
          ([] ++ ('[' :: ("x".toList ++ (']' :: ('(' :: ("./local".toList ++ (')' :: []))))))) =
        [linkRun "x".toList "./local".toList] ∧
      linkRun "x".toList "./local".toList =
        ⟨str "[x](./local)", false, false, false, none⟩) ∧
    (parse_inline_styles
          ([] ++ ('[' :: ("x".toList ++ (']' :: ('(' :: ("http://e.com".toList ++ (')' :: []))))))) =
        [linkRun "x".toList "http://e.com".toList] ∧
      linkRun "x".toList "http://e.com".toList =
        ⟨str "x", false, false, false, some (str "http://e.com")⟩) := by
  have h1 := c8_link_rendering [] "x".toList "./local".toList []
    (by simp) (by simp) (by decide) (by decide) (by decide) (by decide)
  have h2 := c8_link_rendering [] "x".toList "http://e.com".toList []
    (by simp) (by simp) (by decide) (by decide) (by decide) (by decide)
  exact ⟨⟨by decide, by decide, by simpa using h1.1, by decide⟩,
    ⟨by simpa using h2.1, by decide⟩⟩

theorem getTextF_succ (m : BlockMap) (fuel : Nat) (block_id : String)
    (visited : List String) :
    getTextF m (fuel + 1) block_id visited =
      if block_id = "" ∨ block_id ∈ visited then some ([], visited)
      else
        match lookupBlock m block_id with
        | none => some ([], block_id :: visited)
        | some b =>
          if ¬ (trimL (extract_block_text b)).isEmpty then
            some (trimL (extract_block_text b), block_id :: visited)
          else
            match textKidsRun (fun cid v => getTextF m fuel cid v) b.children
                (block_id :: visited) with
            | none => none
            | some (ts, v2) => some (joinNL ts, v2) := rfl

theorem collectF_succ (m : BlockMap) (fuel : Nat) (block_id : String)
    (visited : List String) :
    collectF m (fuel + 1) block_id visited =
      if block_id = "" ∨ block_id ∈ visited then some ([], visited)
      else
        match collectKidsRun (fun cid v => collectF m fuel cid v)
            (((lookupBlock m block_id).map Block.children).getD [])
            (block_id :: visited) with
        | none => none
        | some (ds, v2) => some (ds, v2) := rfl

theorem lookupBlock_mem_keys (m : BlockMap) (id : String) (b : Block)
    (h : lookupBlock m id = some b) : id ∈ m.map Prod.fst := by
  unfold lookupBlock at h
  induction m with
  | nil => simp [List.lookup] at h
  | cons x xs ih =>
    rw [List.lookup_cons] at h
    by_cases he : id == x.1
    · simp [beq_iff_eq.mp he]
    · simp only [he] at h
      exact List.mem_cons_of_mem _ (ih h)

theorem unvisitedKeyCount_mono (m : BlockMap) (v v2 : List String) (h : v ⊆ v2) :
    unvisitedKeyCount m v2 ≤ unvisitedKeyCount m v := by
  unfold unvisitedKeyCount
  refine List.countP_mono_left ?_
  intro k _ hpk
  simp only [Bool.not_eq_true'] at hpk ⊢
  rw [← Bool.not_eq_true] at hpk ⊢
  rw [List.elem_iff] at hpk ⊢
  exact fun hk => hpk (h hk)

theorem unvisitedKeyCount_cons_lt (m : BlockMap) (id : String) (v : List String)
    (hid : id ∈ m.map Prod.fst) (hnv : id ∉ v) :
    unvisitedKeyCount m (id :: v) < unvisitedKeyCount m v := by
  unfold unvisitedKeyCount
  have key : ∀ l : List String, id ∈ l →
      l.countP (fun k => !((id :: v).contains k)) <
        l.countP (fun k => !(v.contains k)) := by
    intro l hl
    induction l with
    | nil => simp at hl
    | cons a l ih =>
      by_cases ha : a = id
      · subst ha
        have h1 : ¬ ((fun k => !((a :: v).contains k)) a = true) := by
          simp [List.elem_iff]
        have h2 : (fun k => !(v.contains k)) a = true := by
          simp only [Bool.not_eq_true']
          rw [← Bool.not_eq_true, List.elem_iff]
          exact hnv
        have hmono : l.countP (fun k => !((a :: v).contains k)) ≤
            l.countP (fun k => !(v.contains k)) := by
          refine List.countP_mono_left ?_
          intro k _ hpk
          simp only [Bool.not_eq_true'] at hpk ⊢
          rw [← Bool.not_eq_true] at hpk ⊢
          rw [List.elem_iff] at hpk ⊢
          exact fun hk => hpk (List.mem_cons_of_mem _ hk)
        rw [List.countP_cons_of_neg _ l h1, List.countP_cons_of_pos _ l h2]
        exact Nat.lt_succ_of_le hmono
      · rw [List.countP_cons, List.countP_cons]
        have hl2 : id ∈ l := by
          rcases List.mem_cons.mp hl with h | h
          · exact absurd h.symm ha
          · exact h
        have heq : (!((id :: v).contains a)) = (!(v.contains a)) := by
          have : ((id :: v).contains a) = (v.contains a) := by
            by_cases hav : a ∈ v
            · simp [List.elem_iff, hav]
            · have e1 : ((id :: v).contains a) = false := by
                rw [← Bool.not_eq_true, List.elem_iff]
                intro hmem
                rcases List.mem_cons.mp hmem with h | h
                · exact ha h
                · exact hav h
              have e2 : (v.contains a) = false := by
                rw [← Bool.not_eq_true, List.elem_iff]
                exact hav
              rw [e1, e2]
          rw [this]
        rw [heq]
        have := ih hl2
        omega
  exact key (m.map Prod.fst) hid

theorem textKidsRun_sub (f : String → List String → Option (List Char × List String))
    (hf : ∀ id v t v2, f id v = some (t, v2) → v ⊆ v2 ∧ (v.Nodup → v2.Nodup)) :
    ∀ (ids : List String) (v : List String) (ts : List (List Char)) (v2 : List String),
      textKidsRun f ids v = some (ts, v2) → v ⊆ v2 ∧ (v.Nodup → v2.Nodup) := by
  intro ids
  induction ids with
  | nil =>
    intro v ts v2 h
    simp only [textKidsRun, Option.some.injEq, Prod.mk.injEq] at h
    rw [← h.2]
    exact ⟨List.Subset.refl v, fun hv => hv⟩
  | cons cid rest ih =>
    intro v ts v2 h
    cases hfv : f cid v with
    | none =>
      simp only [textKidsRun, hfv] at h
      exact Option.noConfusion h
    | some p =>
      obtain ⟨t, v1⟩ := p
      cases hk : textKidsRun f rest v1 with
      | none =>
        simp only [textKidsRun, hfv, hk] at h
        exact Option.noConfusion h
      | some q =>
        obtain ⟨ts2, v3⟩ := q
        simp only [textKidsRun, hfv, hk, Option.some.injEq, Prod.mk.injEq] at h
        have h1 := hf cid v t v1 hfv
        have h2 := ih v1 ts2 v3 hk
        rw [← h.2]
        exact ⟨List.Subset.trans h1.1 h2.1, fun hv => h2.2 (h1.2 hv)⟩

theorem getTextF_visited (m : BlockMap) :
    ∀ (fuel : Nat) (id : String) (v : List String) (t : List Char) (v2 : List String),
      getTextF m fuel id v = some (t, v2) → v ⊆ v2 ∧ (v.Nodup → v2.Nodup) := by
  intro fuel
  induction fuel with
  | zero =>
    intro id v t v2 h
    rw [show getTextF m 0 id v = none from rfl] at h
    simp at h
  | succ fuel ih =>
    intro id v t v2 h
    rw [getTextF_succ] at h
    by_cases h0 : id = "" ∨ id ∈ v
    · rw [if_pos h0] at h
      simp only [Option.some.injEq, Prod.mk.injEq] at h
      rw [← h.2]
      exact ⟨List.Subset.refl v, fun hv => hv⟩
    · rw [if_neg h0] at h
      push_neg at h0
      have hsubc : v ⊆ id :: v := List.subset_cons_self id v
      have hnodc : v.Nodup → (id :: v).Nodup :=
        fun hv => List.nodup_cons.mpr ⟨h0.2, hv⟩
      cases hl : lookupBlock m id with
      | none =>
        simp only [hl, Option.some.injEq, Prod.mk.injEq] at h
        rw [← h.2]
        exact ⟨hsubc, hnodc⟩
      | some b =>
        simp only [hl] at h
        by_cases ht : ¬ (trimL (extract_block_text b)).isEmpty = true
        · rw [if_pos ht] at h
          simp only [Option.some.injEq, Prod.mk.injEq] at h
          rw [← h.2]
          exact ⟨hsubc, hnodc⟩
        · rw [if_neg ht] at h
          cases hk : textKidsRun (fun cid vv => getTextF m fuel cid vv) b.children
              (id :: v) with
          | none =>
            simp only [hk] at h
            exact Option.noConfusion h
          | some q =>
            obtain ⟨ts, v3⟩ := q
            simp only [hk, Option.some.injEq, Prod.mk.injEq] at h
            have hkids := textKidsRun_sub (fun cid vv => getTextF m fuel cid vv)
              (fun i vv tt vv2 hh => ih i vv tt vv2 hh) b.children (id :: v) ts v3 hk
            rw [← h.2]
            exact ⟨List.Subset.trans hsubc hkids.1, fun hv => hkids.2 (hnodc hv)⟩

theorem textKidsRun_total (m : BlockMap) (fuel : Nat)
    (hrec : ∀ (v : List String) (id : String),
      unvisitedKeyCount m v < fuel → (getTextF m fuel id v).isSome = true) :
    ∀ (ids : List String) (v : List String), unvisitedKeyCount m v < fuel →
      ∃ ts v2, textKidsRun (fun cid vv => getTextF m fuel cid vv) ids v =
        some (ts, v2) ∧ v ⊆ v2 := by
  intro ids
  induction ids with
  | nil => exact fun v _ => ⟨[], v, rfl, List.Subset.refl v⟩
  | cons cid rest ih =>
    intro v hv
    obtain ⟨p, hfv⟩ := Option.isSome_iff_exists.mp (hrec v cid hv)
    obtain ⟨t, v1⟩ := p
    have hsub := (getTextF_visited m fuel cid v t v1 hfv).1
    have hμ : unvisitedKeyCount m v1 < fuel :=
      lt_of_le_of_lt (unvisitedKeyCount_mono m v v1 hsub) hv
    obtain ⟨ts, v2, hk, hsub2⟩ := ih v1 hμ
    exact ⟨(if t.isEmpty then [] else [t]) ++ ts, v2,
      by simp only [textKidsRun, hfv, hk], List.Subset.trans hsub hsub2⟩

theorem getTextF_total (m : BlockMap) :
    ∀ (fuel : Nat) (v : List String) (id : String),
      unvisitedKeyCount m v < fuel → (getTextF m fuel id v).isSome = true := by
  intro fuel
  induction fuel with
  | zero => exact fun v id h => absurd h (Nat.not_lt_zero _)
  | succ fuel ih =>
    intro v id hμ
    rw [getTextF_succ]
    by_cases h0 : id = "" ∨ id ∈ v
    · rw [if_pos h0]
      rfl
    · rw [if_neg h0]
      push_neg at h0
      cases hl : lookupBlock m id with
      | none => simp
      | some b =>
        simp only []
        by_cases ht : ¬ (trimL (extract_block_text b)).isEmpty = true
        · rw [if_pos ht]
          rfl
        · rw [if_neg ht]
          have hkey : id ∈ m.map Prod.fst := lookupBlock_mem_keys m id b hl
          have hμ2 : unvisitedKeyCount m (id :: v) < fuel := by
            have := unvisitedKeyCount_cons_lt m id v hkey h0.2
            omega
          obtain ⟨ts, v2, hk, _⟩ :=
            textKidsRun_total m fuel (fun vv ii hh => ih vv ii hh) b.children
              (id :: v) hμ2
          rw [hk]
          rfl

theorem collectKidsRun_sub (f : String → List String → Option (List String × List String))
    (hf : ∀ id v ds v2, f id v = some (ds, v2) → v ⊆ v2 ∧ (v.Nodup → v2.Nodup)) :
    ∀ (ids : List String) (v ds : List String) (v2 : List String),
      collectKidsRun f ids v = some (ds, v2) → v ⊆ v2 ∧ (v.Nodup → v2.Nodup) := by
  intro ids
  induction ids with
  | nil =>
    intro v ds v2 h
    simp only [collectKidsRun, Option.some.injEq, Prod.mk.injEq] at h
    rw [← h.2]
    exact ⟨List.Subset.refl v, fun hv => hv⟩
  | cons cid rest ih =>
    intro v ds v2 h
    cases hfv : f cid v with
    | none =>
      simp only [collectKidsRun, hfv] at h
      exact Option.noConfusion h
    | some p =>
      obtain ⟨ds1, v1⟩ := p
      cases hk : collectKidsRun f rest v1 with
      | none =>
        simp only [collectKidsRun, hfv, hk] at h
        exact Option.noConfusion h
      | some q =>
        obtain ⟨ds2, v3⟩ := q
        simp only [collectKidsRun, hfv, hk, Option.some.injEq, Prod.mk.injEq] at h
        have h1 := hf cid v ds1 v1 hfv
        have h2 := ih v1 ds2 v3 hk
        rw [← h.2]
        exact ⟨List.Subset.trans h1.1 h2.1, fun hv => h2.2 (h1.2 hv)⟩

theorem collectF_visited (m : BlockMap) :
    ∀ (fuel : Nat) (id : String) (v ds : List String) (v2 : List String),
      collectF m fuel id v = some (ds, v2) → v ⊆ v2 ∧ (v.Nodup → v2.Nodup) := by
  intro fuel
  induction fuel with
  | zero =>
    intro id v ds v2 h
    rw [show collectF m 0 id v = none from rfl] at h
    simp at h
  | succ fuel ih =>
    intro id v ds v2 h
    rw [collectF_succ] at h
    by_cases h0 : id = "" ∨ id ∈ v
    · rw [if_pos h0] at h
      simp only [Option.some.injEq, Prod.mk.injEq] at h
      rw [← h.2]
      exact ⟨List.Subset.refl v, fun hv => hv⟩
    · rw [if_neg h0] at h
      push_neg at h0
      have hsubc : v ⊆ id :: v := List.subset_cons_self id v
      have hnodc : v.Nodup → (id :: v).Nodup :=
        fun hv => List.nodup_cons.mpr ⟨h0.2, hv⟩
      cases hk : collectKidsRun (fun cid vv => collectF m fuel cid vv)
          (((lookupBlock m id).map Block.children).getD []) (id :: v) with
      | none =>
        simp only [hk] at h
        exact Option.noConfusion h
      | some q =>
        obtain ⟨ds1, v3⟩ := q
        simp only [hk, Option.some.injEq, Prod.mk.injEq] at h
        have hkids := collectKidsRun_sub (fun cid vv => collectF m fuel cid vv)
          (fun i vv dd vv2 hh => ih i vv dd vv2 hh)
          (((lookupBlock m id).map Block.children).getD []) (id :: v) ds1 v3 hk
        rw [← h.2]
        exact ⟨List.Subset.trans hsubc hkids.1, fun hv => hkids.2 (hnodc hv)⟩

theorem collectKidsRun_total (m : BlockMap) (fuel : Nat)
    (hrec : ∀ (v : List String) (id : String),
      unvisitedKeyCount m v < fuel → (collectF m fuel id v).isSome = true) :
    ∀ (ids : List String) (v : List String), unvisitedKeyCount m v < fuel →
      ∃ ds v2, collectKidsRun (fun cid vv => collectF m fuel cid vv) ids v =
        some (ds, v2) ∧ v ⊆ v2 := by
  intro ids
  induction ids with
  | nil => exact fun v _ => ⟨[], v, rfl, List.Subset.refl v⟩
  | cons cid rest ih =>
    intro v hv
    obtain ⟨p, hfv⟩ := Option.isSome_iff_exists.mp (hrec v cid hv)
    obtain ⟨ds1, v1⟩ := p
    have hsub := (collectF_visited m fuel cid v ds1 v1 hfv).1
    have hμ : unvisitedKeyCount m v1 < fuel :=
      lt_of_le_of_lt (unvisitedKeyCount_mono m v v1 hsub) hv
    obtain ⟨ds2, v2, hk, hsub2⟩ := ih v1 hμ
    exact ⟨cid :: ds1 ++ ds2, v2,
      by simp only [collectKidsRun, hfv, hk], List.Subset.trans hsub hsub2⟩

theorem collectF_total (m : BlockMap) :
    ∀ (fuel : Nat) (v : List String) (id : String),
      unvisitedKeyCount m v < fuel → (collectF m fuel id v).isSome = true := by
  intro fuel
  induction fuel with
  | zero => exact fun v id h => absurd h (Nat.not_lt_zero _)
  | succ fuel ih =>
    intro v id hμ
    rw [collectF_succ]
    by_cases h0 : id = "" ∨ id ∈ v
    · rw [if_pos h0]
      rfl
    · rw [if_neg h0]
      push_neg at h0
      have hμ2 : unvisitedKeyCount m (id :: v) < fuel + 1 := by
        have := unvisitedKeyCount_mono m v (id :: v) (List.subset_cons_self id v)
        omega
      by_cases hkey : unvisitedKeyCount m (id :: v) < fuel
      · obtain ⟨ds, v2, hk, _⟩ :=
          collectKidsRun_total m fuel (fun vv ii hh => ih vv ii hh)
            (((lookupBlock m id).map Block.children).getD []) (id :: v) hkey
        rw [hk]
        rfl
      · cases hl : lookupBlock m id with
        | none => rfl
        | some b =>
          have hk2 : id ∈ m.map Prod.fst := lookupBlock_mem_keys m id b hl
          have := unvisitedKeyCount_cons_lt m id v hk2 h0.2
          omega

/-- C6: for every block map — including maps whose child lists form a
    cycle — text resolution and descendant collection terminate: with
    the fuel bound `|map| + 1` used by `get_block_text_by_id` and
    `collect_descendant_ids`, the traversal always completes (fuel is
    never exhausted) and the visited set it builds is duplicate-free,
    i.e. each block identifier is visited at most once per traversal.
    The final conjuncts run both traversals on a concrete two-cycle
    (`a ↔ b`): each returns, having visited `a` and `b` exactly once. -/
theorem c6_traversal_cycle_safe :
    (∀ (m : BlockMap) (id : String), ∃ t v,
      getTextF m (m.length + 1) id [] = some (t, v) ∧ v.Nodup) ∧
    (∀ (m : BlockMap) (id : String), ∃ ds v,
      collectF m (m.length + 1) id [] = some (ds, v) ∧ v.Nodup) ∧
    getTextF cyclicMap (cyclicMap.length + 1) "a" [] = some ([], ["b", "a"]) ∧
    collectF cyclicMap (cyclicMap.length + 1) "a" [] =
      some (["b", "a"], ["b", "a"]) ∧
    get_block_text_by_id cyclicMap "a" = [] ∧
    collect_descendant_ids cyclicMap "a" = ["b", "a"] := by
  have hμ : ∀ m : BlockMap, unvisitedKeyCount m [] < m.length + 1 := by
    intro m
    have h1 : unvisitedKeyCount m [] ≤ (m.map Prod.fst).length :=
      List.countP_le_length _
    have h2 : (m.map Prod.fst).length = m.length := List.length_map m Prod.fst
    omega
  refine ⟨?_, ?_, by decide, by decide, by decide, by decide⟩
  · intro m id
    obtain ⟨⟨t, v⟩, hs⟩ :=
      Option.isSome_iff_exists.mp (getTextF_total m (m.length + 1) [] id (hμ m))
    exact ⟨t, v, hs, (getTextF_visited m (m.length + 1) id [] t v hs).2 List.nodup_nil⟩
  · intro m id
    obtain ⟨⟨ds, v⟩, hs⟩ :=
      Option.isSome_iff_exists.mp (collectF_total m (m.length + 1) [] id (hμ m))
    exact ⟨ds, v, hs, (collectF_visited m (m.length + 1) id [] ds v hs).2 List.nodup_nil⟩
